import Mathlib

/-!
# Rover: a shallow embedding of `directions.h`, `sensor.h`, `rover_exceptions.h`, `rover.h`

The C++ classes mutate a `RoverState` through a reference and signal failure
by throwing.  Here every operation is a pure function that returns the state
it leaves behind together with the exception it threw (if any) and the trace
of the calls it made to the sensors and to `update_location`.
-/

namespace RoverModel

/-! ## directions.h -/

/-- The enum class `Direction`, in declaration order (SOUTH = 0, ..., EAST = 3). -/
inductive Direction where
  | SOUTH
  | WEST
  | NORTH
  | EAST
  deriving DecidableEq, Repr

/-- Value of `static_cast<int>(dir)`. -/
def Direction.toInt : Direction → Nat
  | .SOUTH => 0
  | .WEST => 1
  | .NORTH => 2
  | .EAST => 3

/-- Value of `Direction(n)` for the enumerator values 0..3; the code only
converts numbers already reduced modulo 4. -/
def Direction.ofInt : Nat → Direction
  | 0 => .SOUTH
  | 1 => .WEST
  | 2 => .NORTH
  | _ => .EAST

/-- The map `print_dir`. -/
def print_dir : Direction → String
  | .SOUTH => " SOUTH"
  | .WEST => " WEST"
  | .NORTH => " NORTH"
  | .EAST => " EAST"

/-- The type `coordinate_t = int32_t`: the integers of the 32-bit signed range. -/
abbrev coordinate_t : Type := { v : Int // -2147483648 ≤ v ∧ v ≤ 2147483647 }

/-- The type `coordinates_t = std::pair<coordinate_t, coordinate_t>`. -/
abbrev coordinates_t : Type := coordinate_t × coordinate_t

/-- Reduction of an integer to the 32-bit signed range (two's complement). -/
def wrap32 (v : Int) : Int := (v + 2147483648) % 4294967296 - 2147483648

/-- Addition of two `int32_t` values.  Where the exact sum leaves the range
the C++ addition is undefined; the embedding makes it total by wrapping. -/
def coordinate_t.add (a b : coordinate_t) : coordinate_t :=
  ⟨wrap32 (a.val + b.val), by unfold wrap32; omega⟩

/-- Subtraction of two `int32_t` values, made total like the addition. -/
def coordinate_t.sub (a b : coordinate_t) : coordinate_t :=
  ⟨wrap32 (a.val - b.val), by unfold wrap32; omega⟩

/-- Literal of type `coordinate_t`. -/
def coordinate_t.ofInt (v : Int) : coordinate_t :=
  ⟨wrap32 v, by unfold wrap32; omega⟩

/-- The map `val`: the change of location for one step in each direction. -/
def val : Direction → coordinates_t
  | .SOUTH => (coordinate_t.ofInt 0, coordinate_t.ofInt (-1))
  | .WEST => (coordinate_t.ofInt (-1), coordinate_t.ofInt 0)
  | .NORTH => (coordinate_t.ofInt 0, coordinate_t.ofInt 1)
  | .EAST => (coordinate_t.ofInt 1, coordinate_t.ofInt 0)

/-! ## sensor.h, rover_exceptions.h -/

/-- The abstract class `Sensor`: its one pure virtual method `is_safe(x, y)`.
The implementations live outside these files; a sensor is taken here as a
predicate on cells, so the same question always gets the same answer.  Each
call the code makes is recorded as an `Event`. -/
abbrev Sensor : Type := coordinate_t → coordinate_t → Bool

/-- The exceptions the code throws or catches. -/
inductive Exception where
  | RoverNotLanded
  | UnsafeLocation
  | out_of_range
  deriving DecidableEq, Repr

/-- What an operation does besides changing the rover state: the call
`sensors[sensor]->is_safe(x, y)`, and the write of a new position `(x, y)`
by `update_location`. -/
inductive Event where
  | is_safe (sensor : Nat) (x y : coordinate_t)
  | update_location (x y : coordinate_t)
  deriving DecidableEq

/-! ## rover.h: RoverState -/

/-- The class `RoverState`. -/
structure RoverState where
  x : coordinate_t
  y : coordinate_t
  dir : Direction
  is_stopped : Bool
  landed : Bool
  deriving DecidableEq

/-- The constructor `RoverState()`: it sets the two flags and leaves `x`, `y`
and `dir` uninitialised, so they are arbitrary here. -/
def RoverState.new (x y : coordinate_t) (dir : Direction) : RoverState :=
  { x := x, y := y, dir := dir, is_stopped := false, landed := false }

/-- The method `update_location`. -/
def RoverState.update_location (state : RoverState) : RoverState :=
  { state with
    x := state.x.add (val state.dir).1
    y := state.y.add (val state.dir).2 }

/-- The method `next_location`. -/
def RoverState.next_location (state : RoverState) : coordinates_t :=
  (state.x.add (val state.dir).1, state.y.add (val state.dir).2)

/-- The method `turn_right`. -/
def RoverState.turn_right (state : RoverState) : RoverState :=
  { state with dir := Direction.ofInt ((state.dir.toInt + 1) % 4) }

/-- The method `turn_left`. -/
def RoverState.turn_left (state : RoverState) : RoverState :=
  { state with dir := Direction.ofInt ((state.dir.toInt + 3) % 4) }

/-- The assignment `state.is_stopped = value`, made by the friend class `Rover`. -/
def RoverState.set_is_stopped (state : RoverState) (value : Bool) : RoverState :=
  { state with is_stopped := value }

/-- Text written by `operator<<` for a `RoverState`. -/
def RoverState.print (state : RoverState) : String :=
  if !state.landed then "unknown"
  else "(" ++ toString state.x.val ++ ", " ++ toString state.y.val ++ ")"
    ++ print_dir state.dir ++ (if state.is_stopped then " stopped" else "")

/-! ## rover.h: commands -/

/-- What a call leaves behind: the exception that left it (`none` when it
returned normally), the rover state after it, and the events it produced. -/
structure Result where
  thrown : Option Exception
  state : RoverState
  trace : List Event
  deriving DecidableEq

/-- The sensor loop of `Move_forward::execute`: the sensors are asked in
order, starting with the sensor of index `i`, and the first one that
answers unsafe throws. -/
def Move_forward.check (new_coords : coordinates_t) :
    List Sensor → Nat → Option Exception × List Event
  | [], _ => (none, [])
  | sensor :: rest, i =>
    if !sensor new_coords.1 new_coords.2 then
      (some .UnsafeLocation, [.is_safe i new_coords.1 new_coords.2])
    else
      let r := Move_forward.check new_coords rest (i + 1)
      (r.1, .is_safe i new_coords.1 new_coords.2 :: r.2)

/-- The method `Move_forward::execute`. -/
def Move_forward.execute (state : RoverState) (sensors : List Sensor) : Result :=
  let new_coords := state.next_location
  match Move_forward.check new_coords sensors 0 with
  | (some e, tr) => ⟨some e, state, tr⟩
  | (none, tr) =>
    let state1 := state.update_location
    ⟨none, state1, tr ++ [.update_location state1.x state1.y]⟩

/-- The method `Move_backward::execute`. -/
def Move_backward.execute (state : RoverState) (sensors : List Sensor) : Result :=
  let state1 := state.turn_right.turn_right
  let r := Move_forward.execute state1 sensors
  match r.thrown with
  | some .UnsafeLocation => ⟨some .UnsafeLocation, r.state.turn_right.turn_right, r.trace⟩
  | some e => ⟨some e, r.state, r.trace⟩
  | none => ⟨none, r.state.turn_right.turn_right, r.trace⟩

/-- The method `Rotate_right::execute`. -/
def Rotate_right.execute (state : RoverState) (_sensors : List Sensor) : Result :=
  ⟨none, state.turn_right, []⟩

/-- The method `Rotate_left::execute`. -/
def Rotate_left.execute (state : RoverState) (_sensors : List Sensor) : Result :=
  ⟨none, state.turn_left, []⟩

/-- The classes derived from `Command` in `rover.h`; `Compose` owns the list
of its children. -/
inductive Command where
  | Move_forward
  | Move_backward
  | Rotate_right
  | Rotate_left
  | Compose (commands : List Command)

mutual
/-- The virtual method `Command::execute`, dispatched on the class. -/
def Command.execute : Command → RoverState → List Sensor → Result
  | .Move_forward, state, sensors => Move_forward.execute state sensors
  | .Move_backward, state, sensors => Move_backward.execute state sensors
  | .Rotate_right, state, sensors => Rotate_right.execute state sensors
  | .Rotate_left, state, sensors => Rotate_left.execute state sensors
  | .Compose commands, state, sensors => Compose.execute commands state sensors
/-- The method `Compose::execute`: the loop over the children; an exception
thrown by a child leaves the loop and the method. -/
def Compose.execute : List Command → RoverState → List Sensor → Result
  | [], state, _ => ⟨none, state, []⟩
  | command :: rest, state, sensors =>
    let r := Command.execute command state sensors
    match r.thrown with
    | some e => ⟨some e, r.state, r.trace⟩
    | none =>
      let r1 := Compose.execute rest r.state sensors
      ⟨r1.thrown, r1.state, r.trace ++ r1.trace⟩
end

/-! ## rover.h: Rover -/

/-- The class `Rover`: the `unordered_map` from characters to commands (`none`
where the map has no entry, so that `commands.at` throws), the sensors and
the state. -/
structure Rover where
  commands : Char → Option Command
  sensors : List Sensor
  state : RoverState

/-- The loop of `Rover::execute` over the characters of `commands_to_exec`.
`commands.at(command)` throws `out_of_range` where the map has no entry; the
two handlers set `is_stopped` and leave the loop; any other exception leaves
the method. -/
def Rover.execute_loop (commands : Char → Option Command) (sensors : List Sensor) :
    List Char → RoverState → Result
  | [], state => ⟨none, state, []⟩
  | command :: rest, state =>
    match commands command with
    | none => ⟨none, state.set_is_stopped true, []⟩
    | some cmd =>
      let r := cmd.execute state sensors
      match r.thrown with
      | some .UnsafeLocation => ⟨none, r.state.set_is_stopped true, r.trace⟩
      | some .out_of_range => ⟨none, r.state.set_is_stopped true, r.trace⟩
      | some e => ⟨some e, r.state, r.trace⟩
      | none =>
        let r1 := Rover.execute_loop commands sensors rest r.state
        ⟨r1.thrown, r1.state, r.trace ++ r1.trace⟩

/-- The method `Rover::execute`. -/
def Rover.execute (rover : Rover) (commands_to_exec : List Char) : Result :=
  if !rover.state.landed then
    ⟨some .RoverNotLanded, rover.state, []⟩
  else
    Rover.execute_loop rover.commands rover.sensors commands_to_exec
      (rover.state.set_is_stopped false)

/-- The method `Rover::land`. -/
def Rover.land (rover : Rover) (coords : coordinates_t) (direction : Direction) : Rover :=
  { rover with
    state := { dir := direction, x := coords.1, y := coords.2, landed := true,
               is_stopped := false } }

/-- The rover object after the call `execute(commands_to_exec)`: only its
state can have changed. -/
def Rover.after_execute (rover : Rover) (commands_to_exec : List Char) : Rover :=
  { rover with state := (rover.execute commands_to_exec).state }

/-- Text written by `operator<<` for a `Rover`: that of its state. -/
def Rover.print (rover : Rover) : String :=
  rover.state.print

/-- The private constructor `Rover(commands, sensors)`: the state is
`RoverState()`, whose `x`, `y` and `dir` are uninitialised and so arbitrary. -/
def Rover.new (commands : Char → Option Command) (sensors : List Sensor)
    (x y : coordinate_t) (dir : Direction) : Rover :=
  { commands := commands, sensors := sensors, state := RoverState.new x y dir }

/-! ## rover.h: RoverBuilder -/

/-- The class `RoverBuilder`. -/
structure RoverBuilder where
  commands : Char → Option Command
  sensors : List Sensor

/-- The constructor `RoverBuilder()`: an empty map and an empty vector. -/
def RoverBuilder.new : RoverBuilder :=
  { commands := fun _ => none, sensors := [] }

/-- The method `program_command`: the assignment `commands[c] = func`. -/
def RoverBuilder.program_command (builder : RoverBuilder) (c : Char) (func : Command) :
    RoverBuilder :=
  { builder with commands := fun k => if k = c then some func else builder.commands k }

/-- The method `add_sensor`: `sensors.push_back`. -/
def RoverBuilder.add_sensor (builder : RoverBuilder) (sensor : Sensor) : RoverBuilder :=
  { builder with sensors := builder.sensors ++ [sensor] }

/-- The method `build`. -/
def RoverBuilder.build (builder : RoverBuilder) (x y : coordinate_t) (dir : Direction) : Rover :=
  Rover.new builder.commands builder.sensors x y dir

/-! ## Sequences of calls -/

/-- A call of one of the two chaining methods of `RoverBuilder`. -/
inductive BuilderCall where
  | program_command (c : Char) (func : Command)
  | add_sensor (sensor : Sensor)

/-- The builder after one call. -/
def RoverBuilder.call (builder : RoverBuilder) : BuilderCall → RoverBuilder
  | .program_command c func => builder.program_command c func
  | .add_sensor sensor => builder.add_sensor sensor

/-- The builder after a sequence of calls on a fresh `RoverBuilder()`. -/
def RoverBuilder.calls (calls : List BuilderCall) : RoverBuilder :=
  calls.foldl RoverBuilder.call RoverBuilder.new

/-- A call of one of the two public methods of `Rover`. -/
inductive RoverCall where
  | land (coords : coordinates_t) (direction : Direction)
  | execute (commands_to_exec : List Char)

/-- The rover after one call (an `execute` that throws leaves it as
`after_execute` says). -/
def Rover.call (rover : Rover) : RoverCall → Rover
  | .land coords direction => rover.land coords direction
  | .execute commands_to_exec => rover.after_execute commands_to_exec

/-- The cells the position takes in the course of a call: the arguments of
its `update_location` events, in order. -/
def locations (trace : List Event) : List coordinates_t :=
  trace.filterMap fun e =>
    match e with
    | .update_location x y => some (x, y)
    | .is_safe _ _ _ => none

/-- What the sensor safety invariant asks of a call that starts in the
state `entry` and leaves the result `r`: every cell the position took is
reported safe by every sensor, and the final position is the last of these
cells, or the entry position when there is none. -/
def safe_path (sensors : List Sensor) (entry : RoverState) (r : Result) : Prop :=
  (∀ cell ∈ locations r.trace, ∀ sensor ∈ sensors, sensor cell.1 cell.2 = true) ∧
  (r.state.x, r.state.y) = ((locations r.trace).getLast?).getD (entry.x, entry.y)

/-- The sensor calls of a trace, in order: sensor index and cell. -/
def queries (trace : List Event) : List (Nat × coordinates_t) :=
  trace.filterMap fun e =>
    match e with
    | .is_safe i x y => some (i, (x, y))
    | .update_location _ _ => none

/-! ## Instructions on their own

The specification speaks of an instruction that succeeds or fails on the
state left by its predecessors.  The two functions below say what that means
without the loop of `Rover::execute`: they are built from `Command::execute`
alone, and the loop is compared with them. -/

/-- One instruction character on a state: the state its command leaves when
the character is bound and the command returns normally, `none` when the
character is unbound or the command throws. -/
def Rover.instruction (commands : Char → Option Command) (sensors : List Sensor)
    (state : RoverState) (command : Char) : Option RoverState :=
  match commands command with
  | none => none
  | some cmd =>
    if (cmd.execute state sensors).thrown = none then some (cmd.execute state sensors).state
    else none

/-- The bound commands of all characters applied in string order, each once,
each to the state its predecessor left; `none` when one of them fails. -/
def Rover.instructions (commands : Char → Option Command) (sensors : List Sensor)
    (commands_to_exec : List Char) (state : RoverState) : Option RoverState :=
  commands_to_exec.foldlM (Rover.instruction commands sensors) state

/-! ## The commands as the specification describes them -/

/-- The direct reverse-displacement command of the specification, written
from its words, to be compared with `Move_backward.execute`: let
`c = position - displacement(orientation)`; if every sensor reports `c` safe
then set `position := c` and succeed, else fail with `UnsafeLocation`; the
orientation is unchanged in both cases. -/
def reverse_displacement_move (state : RoverState) (sensors : List Sensor) :
    Option Exception × RoverState :=
  let c : coordinates_t := (state.x.sub (val state.dir).1, state.y.sub (val state.dir).2)
  if sensors.all (fun sensor => sensor c.1 c.2) then
    (none, { state with x := c.1, y := c.2 })
  else
    (some .UnsafeLocation, state)

/-- The children of a composite on their own: each applied once, in list
order, to the state its predecessor left; `none` when one of them throws. -/
def children_in_order (sensors : List Sensor) (commands : List Command)
    (state : RoverState) : Option RoverState :=
  commands.foldlM
    (fun st command =>
      if (command.execute st sensors).thrown = none then some (command.execute st sensors).state
      else none)
    state

/-! ## Concrete rovers for the examples of the specification -/

/-- A sensor that reports the cell `(x, y)` unsafe and every other cell safe. -/
def obstacle_at (x y : Int) : Sensor :=
  fun a b => !(a.val == x && b.val == y)

/-- The bindings of the examples: `f`, `b`, `r`, `l` for the four simple
commands, `c` for `Compose([rotate_right, move_forward])`; no other character
is bound. -/
def example_commands : Char → Option Command := fun c =>
  if c = 'f' then some .Move_forward
  else if c = 'b' then some .Move_backward
  else if c = 'r' then some .Rotate_right
  else if c = 'l' then some .Rotate_left
  else if c = 'c' then some (.Compose [.Rotate_right, .Move_forward])
  else none

/-- A rover as built, not landed, with the bindings of the examples. -/
def example_rover (sensors : List Sensor) : Rover :=
  { commands := example_commands, sensors := sensors,
    state := RoverState.new (coordinate_t.ofInt 7) (coordinate_t.ofInt 7) .SOUTH }

/-- The origin `(0, 0)`. -/
def origin : coordinates_t := (coordinate_t.ofInt 0, coordinate_t.ofInt 0)

/-! ## Lemmas -/


@[simp] theorem RoverState.turn_right_x (s : RoverState) : s.turn_right.x = s.x := rfl
@[simp] theorem RoverState.turn_right_y (s : RoverState) : s.turn_right.y = s.y := rfl
@[simp] theorem RoverState.turn_right_landed (s : RoverState) :
    s.turn_right.landed = s.landed := rfl
@[simp] theorem RoverState.turn_right_is_stopped (s : RoverState) :
    s.turn_right.is_stopped = s.is_stopped := rfl
@[simp] theorem RoverState.turn_left_x (s : RoverState) : s.turn_left.x = s.x := rfl
@[simp] theorem RoverState.turn_left_y (s : RoverState) : s.turn_left.y = s.y := rfl
@[simp] theorem RoverState.turn_left_landed (s : RoverState) :
    s.turn_left.landed = s.landed := rfl
@[simp] theorem RoverState.turn_left_is_stopped (s : RoverState) :
    s.turn_left.is_stopped = s.is_stopped := rfl
@[simp] theorem RoverState.update_location_dir (s : RoverState) :
    s.update_location.dir = s.dir := rfl
@[simp] theorem RoverState.update_location_landed (s : RoverState) :
    s.update_location.landed = s.landed := rfl
@[simp] theorem RoverState.update_location_is_stopped (s : RoverState) :
    s.update_location.is_stopped = s.is_stopped := rfl

@[simp] theorem RoverState.set_is_stopped_x (s : RoverState) (b : Bool) :
    (s.set_is_stopped b).x = s.x := rfl
@[simp] theorem RoverState.set_is_stopped_y (s : RoverState) (b : Bool) :
    (s.set_is_stopped b).y = s.y := rfl
@[simp] theorem RoverState.set_is_stopped_dir (s : RoverState) (b : Bool) :
    (s.set_is_stopped b).dir = s.dir := rfl
@[simp] theorem RoverState.set_is_stopped_landed (s : RoverState) (b : Bool) :
    (s.set_is_stopped b).landed = s.landed := rfl
@[simp] theorem RoverState.set_is_stopped_is_stopped (s : RoverState) (b : Bool) :
    (s.set_is_stopped b).is_stopped = b := rfl
@[simp] theorem RoverState.set_is_stopped_twice (s : RoverState) (a b : Bool) :
    (s.set_is_stopped a).set_is_stopped b = s.set_is_stopped b := rfl

theorem RoverState.next_location_set_stopped (s : RoverState) (b : Bool) :
    (s.set_is_stopped b).next_location = s.next_location := rfl

theorem RoverState.update_location_set_stopped (s : RoverState) (b : Bool) :
    (s.set_is_stopped b).update_location = s.update_location.set_is_stopped b := rfl

theorem RoverState.turn_right_set_stopped (s : RoverState) (b : Bool) :
    RoverState.turn_right (s.set_is_stopped b) = s.turn_right.set_is_stopped b := rfl

theorem RoverState.turn_left_set_stopped (s : RoverState) (b : Bool) :
    RoverState.turn_left (s.set_is_stopped b) = s.turn_left.set_is_stopped b := rfl

theorem Move_forward.check_thrown (new_coords : coordinates_t) (sensors : List Sensor) (i : Nat) :
    (Move_forward.check new_coords sensors i).1 = none ∨
    (Move_forward.check new_coords sensors i).1 = some .UnsafeLocation := by
  induction sensors generalizing i with
  | nil => simp [Move_forward.check]
  | cons sensor rest ih =>
    simp only [Move_forward.check]
    split
    · simp
    · exact ih (i + 1)

theorem Move_forward.check_none_iff (new_coords : coordinates_t) (sensors : List Sensor) (i : Nat) :
    (Move_forward.check new_coords sensors i).1 = none ↔
    ∀ sensor ∈ sensors, sensor new_coords.1 new_coords.2 = true := by
  induction sensors generalizing i with
  | nil => simp [Move_forward.check]
  | cons sensor rest ih =>
    simp only [Move_forward.check]
    split
    · rename_i h
      simp at h
      simp [h]
    · rename_i h
      simp at h
      simp [h, ih (i + 1)]

theorem Move_forward.execute_eq_check (state : RoverState) (sensors : List Sensor) :
    Move_forward.execute state sensors =
      if (Move_forward.check state.next_location sensors 0).1 = none then
        ⟨none, state.update_location,
          (Move_forward.check state.next_location sensors 0).2 ++
            [.update_location state.update_location.x state.update_location.y]⟩
      else
        ⟨some .UnsafeLocation, state, (Move_forward.check state.next_location sensors 0).2⟩ := by
  have h := Move_forward.check_thrown state.next_location sensors 0
  dsimp only [Move_forward.execute]
  generalize Move_forward.check state.next_location sensors 0 = p at h
  rcases p with ⟨_ | e, tr⟩
  · simp
  · simp at h
    simp [h]

theorem Move_forward.forward_thrown (state : RoverState) (sensors : List Sensor) :
    (Move_forward.execute state sensors).thrown = none ∨
    (Move_forward.execute state sensors).thrown = some .UnsafeLocation := by
  rw [Move_forward.execute_eq_check]
  split <;> simp

mutual
theorem Command.command_thrown (cmd : Command) (state : RoverState) (sensors : List Sensor) :
    (cmd.execute state sensors).thrown = none ∨
    (cmd.execute state sensors).thrown = some .UnsafeLocation := by
  cases cmd with
  | Move_forward => simpa [Command.execute] using Move_forward.forward_thrown state sensors
  | Move_backward =>
    simp only [Command.execute, Move_backward.execute]
    rcases Move_forward.forward_thrown state.turn_right.turn_right sensors with h | h <;> simp [h]
  | Rotate_right => simp [Command.execute, Rotate_right.execute]
  | Rotate_left => simp [Command.execute, Rotate_left.execute]
  | Compose commands =>
    simpa [Command.execute] using Compose.compose_thrown commands state sensors
theorem Compose.compose_thrown (commands : List Command) (state : RoverState)
    (sensors : List Sensor) :
    (Compose.execute commands state sensors).thrown = none ∨
    (Compose.execute commands state sensors).thrown = some .UnsafeLocation := by
  cases commands with
  | nil => simp [Compose.execute]
  | cons command rest =>
    simp only [Compose.execute]
    rcases Command.command_thrown command state sensors with h | h
    · simp only [h]
      exact Compose.compose_thrown rest _ sensors
    · simp [h]
end

/-- The handler of `Move_backward::execute` and its normal path end alike:
the exception of the inner move, the heading turned twice more. -/
theorem Move_backward.execute_eq_forward (state : RoverState) (sensors : List Sensor) :
    Move_backward.execute state sensors =
      ⟨(Move_forward.execute state.turn_right.turn_right sensors).thrown,
       (Move_forward.execute state.turn_right.turn_right sensors).state.turn_right.turn_right,
       (Move_forward.execute state.turn_right.turn_right sensors).trace⟩ := by
  unfold Move_backward.execute
  rcases Move_forward.forward_thrown state.turn_right.turn_right sensors with h | h <;>
    simp only [h]

theorem Move_forward.forward_flags (state : RoverState) (sensors : List Sensor) :
    (Move_forward.execute state sensors).state.landed = state.landed ∧
    (Move_forward.execute state sensors).state.is_stopped = state.is_stopped := by
  rw [Move_forward.execute_eq_check]
  split <;> simp [RoverState.update_location]

theorem Move_backward.backward_flags (state : RoverState) (sensors : List Sensor) :
    (Move_backward.execute state sensors).state.landed = state.landed ∧
    (Move_backward.execute state sensors).state.is_stopped = state.is_stopped := by
  have h := Move_forward.forward_flags state.turn_right.turn_right sensors
  rw [Move_backward.execute_eq_forward]
  simpa using h

mutual
theorem Command.command_flags (cmd : Command) (state : RoverState) (sensors : List Sensor) :
    (cmd.execute state sensors).state.landed = state.landed ∧
    (cmd.execute state sensors).state.is_stopped = state.is_stopped := by
  cases cmd with
  | Move_forward => simpa [Command.execute] using Move_forward.forward_flags state sensors
  | Move_backward => simpa [Command.execute] using Move_backward.backward_flags state sensors
  | Rotate_right => simp [Command.execute, Rotate_right.execute, RoverState.turn_right]
  | Rotate_left => simp [Command.execute, Rotate_left.execute, RoverState.turn_left]
  | Compose commands =>
    simpa [Command.execute] using Compose.compose_flags commands state sensors
theorem Compose.compose_flags (commands : List Command) (state : RoverState)
    (sensors : List Sensor) :
    (Compose.execute commands state sensors).state.landed = state.landed ∧
    (Compose.execute commands state sensors).state.is_stopped = state.is_stopped := by
  cases commands with
  | nil => simp [Compose.execute]
  | cons command rest =>
    simp only [Compose.execute]
    have h1 := Command.command_flags command state sensors
    rcases Command.command_thrown command state sensors with h | h
    · simp only [h]
      have h2 := Compose.compose_flags rest (Command.execute command state sensors).state sensors
      exact ⟨h2.1.trans h1.1, h2.2.trans h1.2⟩
    · simpa [h] using h1
end

/-- Writing the flag `is_stopped` commutes with every command: no command reads it. -/
theorem Move_forward.forward_set_stopped (state : RoverState) (sensors : List Sensor) (b : Bool) :
    Move_forward.execute (state.set_is_stopped b) sensors =
      ⟨(Move_forward.execute state sensors).thrown,
       (Move_forward.execute state sensors).state.set_is_stopped b,
       (Move_forward.execute state sensors).trace⟩ := by
  rw [Move_forward.execute_eq_check, Move_forward.execute_eq_check, RoverState.next_location_set_stopped,
    RoverState.update_location_set_stopped]
  split <;> simp

theorem Move_backward.backward_set_stopped (state : RoverState) (sensors : List Sensor) (b : Bool) :
    Move_backward.execute (state.set_is_stopped b) sensors =
      ⟨(Move_backward.execute state sensors).thrown,
       (Move_backward.execute state sensors).state.set_is_stopped b,
       (Move_backward.execute state sensors).trace⟩ := by
  rw [Move_backward.execute_eq_forward, Move_backward.execute_eq_forward, RoverState.turn_right_set_stopped,
    RoverState.turn_right_set_stopped, Move_forward.forward_set_stopped]
  rfl

mutual
theorem Command.command_set_stopped (cmd : Command) (state : RoverState) (sensors : List Sensor)
    (b : Bool) :
    cmd.execute (state.set_is_stopped b) sensors =
      ⟨(cmd.execute state sensors).thrown,
       (cmd.execute state sensors).state.set_is_stopped b,
       (cmd.execute state sensors).trace⟩ := by
  cases cmd with
  | Move_forward => simpa [Command.execute] using Move_forward.forward_set_stopped state sensors b
  | Move_backward => simpa [Command.execute] using Move_backward.backward_set_stopped state sensors b
  | Rotate_right => rfl
  | Rotate_left => rfl
  | Compose commands =>
    simpa [Command.execute] using Compose.compose_set_stopped commands state sensors b
theorem Compose.compose_set_stopped (commands : List Command) (state : RoverState)
    (sensors : List Sensor) (b : Bool) :
    Compose.execute commands (state.set_is_stopped b) sensors =
      ⟨(Compose.execute commands state sensors).thrown,
       (Compose.execute commands state sensors).state.set_is_stopped b,
       (Compose.execute commands state sensors).trace⟩ := by
  cases commands with
  | nil => simp [Compose.execute]
  | cons command rest =>
    simp only [Compose.execute]
    rw [Command.command_set_stopped command state sensors b]
    rcases Command.command_thrown command state sensors with h | h
    · simp only [h]
      rw [Compose.compose_set_stopped rest (Command.execute command state sensors).state sensors b]
    · simp [h]
end


/-! ## Lemmas on the loop of `Rover::execute` -/

theorem Rover.instructions_nil (commands : Char → Option Command) (sensors : List Sensor)
    (state : RoverState) : Rover.instructions commands sensors [] state = some state := rfl

theorem Rover.instructions_cons (commands : Char → Option Command) (sensors : List Sensor)
    (c : Char) (rest : List Char) (state : RoverState) :
    Rover.instructions commands sensors (c :: rest) state =
      (Rover.instruction commands sensors state c).bind
        (Rover.instructions commands sensors rest) := by
  simp [Rover.instructions, List.foldlM_cons, Option.bind_eq_bind]

theorem Rover.instructions_append (commands : Char → Option Command) (sensors : List Sensor)
    (pre rest : List Char) (state : RoverState) :
    Rover.instructions commands sensors (pre ++ rest) state =
      (Rover.instructions commands sensors pre state).bind
        (Rover.instructions commands sensors rest) := by
  simp [Rover.instructions, List.foldlM_append, Option.bind_eq_bind]

/-- An instruction succeeds exactly when its character is bound to a command
that returns normally. -/
theorem Rover.instruction_eq_some (commands : Char → Option Command) (sensors : List Sensor)
    (state st1 : RoverState) (c : Char) :
    Rover.instruction commands sensors state c = some st1 ↔
      ∃ cmd, commands c = some cmd ∧ (cmd.execute state sensors).thrown = none ∧
        (cmd.execute state sensors).state = st1 := by
  unfold Rover.instruction
  cases h : commands c with
  | none => simp
  | some cmd =>
    by_cases ht : (cmd.execute state sensors).thrown = none <;> simp [ht]

/-- An instruction fails exactly when its character is unbound or its command
throws `UnsafeLocation`. -/
theorem Rover.instruction_eq_none (commands : Char → Option Command) (sensors : List Sensor)
    (state : RoverState) (c : Char) :
    Rover.instruction commands sensors state c = none ↔
      (commands c = none ∨ ∃ cmd, commands c = some cmd ∧
        (cmd.execute state sensors).thrown = some .UnsafeLocation) := by
  unfold Rover.instruction
  cases h : commands c with
  | none => simp
  | some cmd =>
    rcases Command.command_thrown cmd state sensors with ht | ht <;> simp [ht]

/-- The loop never lets an exception out. -/
theorem Rover.execute_loop_thrown (commands : Char → Option Command) (sensors : List Sensor)
    (s : List Char) (state : RoverState) :
    (Rover.execute_loop commands sensors s state).thrown = none := by
  induction s generalizing state with
  | nil => rfl
  | cons c rest ih =>
    unfold Rover.execute_loop
    cases h : commands c with
    | none => rfl
    | some cmd =>
      rcases Command.command_thrown cmd state sensors with ht | ht
      · simp only [ht]
        exact ih _
      · simp only [ht]

/-- While the instructions succeed the loop goes on: after a run of
successful instructions it continues with the rest from the state they left. -/
theorem Rover.execute_loop_append (commands : Char → Option Command) (sensors : List Sensor)
    (pre rest : List Char) (state st1 : RoverState)
    (h : Rover.instructions commands sensors pre state = some st1) :
    Rover.execute_loop commands sensors (pre ++ rest) state =
      ⟨(Rover.execute_loop commands sensors rest st1).thrown,
       (Rover.execute_loop commands sensors rest st1).state,
       (Rover.execute_loop commands sensors pre state).trace ++
         (Rover.execute_loop commands sensors rest st1).trace⟩ := by
  induction pre generalizing state with
  | nil =>
    simp only [Rover.instructions_nil, Option.some.injEq] at h
    subst h
    simp [Rover.execute_loop]
  | cons c pre ih =>
    rw [Rover.instructions_cons] at h
    cases hi : Rover.instruction commands sensors state c with
    | none => simp [hi] at h
    | some st2 =>
      simp only [hi, Option.some_bind] at h
      obtain ⟨cmd, hc, ht, hs⟩ := (Rover.instruction_eq_some commands sensors state st2 c).1 hi
      have ih1 := ih st2 h
      rw [List.cons_append]
      simp only [Rover.execute_loop, hc, ht, hs]
      rw [ih1]
      simp

/-- A run of successful instructions leaves the loop normally, in the state
they produce. -/
theorem Rover.execute_loop_of_some (commands : Char → Option Command) (sensors : List Sensor)
    (s : List Char) (state st1 : RoverState)
    (h : Rover.instructions commands sensors s state = some st1) :
    (Rover.execute_loop commands sensors s state).thrown = none ∧
    (Rover.execute_loop commands sensors s state).state = st1 := by
  have h1 := Rover.execute_loop_append commands sensors s [] state st1 h
  rw [List.append_nil] at h1
  rw [h1]
  simp [Rover.execute_loop]

/-- A failing instruction ends the loop with `is_stopped` set. -/
theorem Rover.execute_loop_of_none (commands : Char → Option Command) (sensors : List Sensor)
    (s : List Char) (state : RoverState)
    (h : Rover.instructions commands sensors s state = none) :
    (Rover.execute_loop commands sensors s state).state.is_stopped = true := by
  induction s generalizing state with
  | nil => simp [Rover.instructions_nil] at h
  | cons c rest ih =>
    rw [Rover.instructions_cons] at h
    unfold Rover.execute_loop
    cases hc : commands c with
    | none => rfl
    | some cmd =>
      rcases Command.command_thrown cmd state sensors with ht | ht
      · simp only [ht]
        apply ih
        simpa [Rover.instruction, hc, ht] using h
      · simp only [ht]
        rfl

/-- Successful instructions leave the two flags alone. -/
theorem Rover.instructions_flags (commands : Char → Option Command) (sensors : List Sensor)
    (s : List Char) (state st1 : RoverState)
    (h : Rover.instructions commands sensors s state = some st1) :
    st1.landed = state.landed ∧ st1.is_stopped = state.is_stopped := by
  induction s generalizing state with
  | nil =>
    simp only [Rover.instructions_nil, Option.some.injEq] at h
    subst h
    exact ⟨rfl, rfl⟩
  | cons c rest ih =>
    rw [Rover.instructions_cons] at h
    cases hi : Rover.instruction commands sensors state c with
    | none => simp [hi] at h
    | some st2 =>
      simp only [hi, Option.some_bind] at h
      obtain ⟨cmd, _, _, hs⟩ := (Rover.instruction_eq_some commands sensors state st2 c).1 hi
      have hf := Command.command_flags cmd state sensors
      rw [hs] at hf
      have := ih st2 h
      exact ⟨this.1.trans hf.1, this.2.trans hf.2⟩

/-- No instruction reads `is_stopped`: writing the flag before a run of
instructions is the same as writing it after. -/
theorem Rover.instructions_set_stopped (commands : Char → Option Command) (sensors : List Sensor)
    (s : List Char) (state : RoverState) (b : Bool) :
    Rover.instructions commands sensors s (state.set_is_stopped b) =
      (Rover.instructions commands sensors s state).map (fun st => st.set_is_stopped b) := by
  induction s generalizing state with
  | nil => rfl
  | cons c rest ih =>
    rw [Rover.instructions_cons, Rover.instructions_cons]
    unfold Rover.instruction
    cases hc : commands c with
    | none => rfl
    | some cmd =>
      simp only [Command.command_set_stopped cmd state sensors b]
      rcases Command.command_thrown cmd state sensors with ht | ht
      · simp only [ht, if_true, Option.some_bind]
        exact ih _
      · simp [ht]

/-! ## The claims -/

/-- After a failing instruction nothing that follows it in the string matters. -/
theorem Rover.execute_loop_cons_of_none (commands : Char → Option Command)
    (sensors : List Sensor) (c : Char) (rest : List Char) (state : RoverState)
    (h : Rover.instruction commands sensors state c = none) :
    Rover.execute_loop commands sensors (c :: rest) state =
      Rover.execute_loop commands sensors [c] state := by
  rcases (Rover.instruction_eq_none commands sensors state c).1 h with hc | ⟨cmd, hc, ht⟩
  · simp only [Rover.execute_loop, hc]
  · simp only [Rover.execute_loop, hc, ht]

/-- The string cut at an index whose character exists. -/
theorem split_at_index {α : Type} (s : List α) (i : Nat) (c : α)
    (h : s[i]? = some c) :
    s = s.take i ++ c :: s.drop (i + 1) ∧ s.take (i + 1) = s.take i ++ [c] := by
  obtain ⟨hi, hc⟩ := List.getElem?_eq_some_iff.1 h
  constructor
  · conv_lhs => rw [← List.take_append_drop i s, List.drop_eq_getElem_cons hi, hc]
  · rw [List.take_succ, h]
    rfl

/-- C1: a rover that has not landed rejects `execute` with `RoverNotLanded`
whatever its bindings, sensors and the instruction string are: the state is
returned as it was, no sensor is asked and no location written (the result
does not mention the bindings), the rover object is unchanged, and so the
same holds after any number of earlier calls. -/
theorem C1_execute_not_landed (rover : Rover) (commands_to_exec : List Char)
    (h : rover.state.landed = false) :
    rover.execute commands_to_exec = ⟨some .RoverNotLanded, rover.state, []⟩ ∧
    rover.after_execute commands_to_exec = rover ∧
    ∀ calls : List (List Char),
      calls.foldl Rover.after_execute rover = rover ∧
      (calls.foldl Rover.after_execute rover).execute commands_to_exec =
        ⟨some .RoverNotLanded, rover.state, []⟩ := by
  have h1 : ∀ s : List Char, rover.execute s = ⟨some .RoverNotLanded, rover.state, []⟩ := by
    intro s
    simp [Rover.execute, h]
  have h2 : ∀ s : List Char, rover.after_execute s = rover := by
    intro s
    simp [Rover.after_execute, h1 s]
  have h3 : ∀ calls : List (List Char), calls.foldl Rover.after_execute rover = rover := by
    intro calls
    induction calls with
    | nil => rfl
    | cons s calls ih => rw [List.foldl_cons, h2 s, ih]
  refine ⟨h1 _, h2 _, fun calls => ⟨h3 calls, ?_⟩⟩
  rw [h3 calls]
  exact h1 _

/-- C1 at the rover of the examples before any landing, for the string "fr"
and for the empty string. -/
theorem C1_execute_not_landed_witness :
    (example_rover []).state.landed = false ∧
    (example_rover []).execute ['f', 'r'] =
      ⟨some .RoverNotLanded, (example_rover []).state, []⟩ ∧
    (example_rover []).execute [] = ⟨some .RoverNotLanded, (example_rover []).state, []⟩ :=
  ⟨rfl, (C1_execute_not_landed (example_rover []) ['f', 'r'] rfl).1,
    (C1_execute_not_landed (example_rover []) [] rfl).1⟩
/-- The call on a landed rover is the loop run from the state with
`is_stopped` cleared. -/
theorem Rover.execute_landed (rover : Rover) (s : List Char)
    (h : rover.state.landed = true) :
    rover.execute s =
      Rover.execute_loop rover.commands rover.sensors s (rover.state.set_is_stopped false) := by
  simp [Rover.execute, h]

/-- C2: fail-fast.  On a landed rover, when the instructions before index
`i` all succeed (leaving the state `st`) and the instruction at index `i`
fails there (its character is unbound, or its command throws
`UnsafeLocation`), `execute(s)` returns what `execute` of the string cut after
index `i` returns (same state, same trace of sensor calls and moves), with
`is_stopped = true`, and nothing that follows index `i` has any influence.
Example: landed at (0,0) facing NORTH, (0,1) unsafe, `execute("ff")` ends at
(0,0) facing NORTH with `is_stopped = true`, after one sensor call. -/
theorem C2_fail_fast :
    (∀ (rover : Rover) (s : List Char) (i : Nat) (c : Char) (st : RoverState),
      rover.state.landed = true →
      Rover.instructions rover.commands rover.sensors (s.take i)
        (rover.state.set_is_stopped false) = some st →
      s[i]? = some c →
      (rover.commands c = none ∨ ∃ cmd, rover.commands c = some cmd ∧
        (cmd.execute st rover.sensors).thrown = some .UnsafeLocation) →
      rover.execute s = rover.execute (s.take (i + 1)) ∧
      (rover.execute s).state.is_stopped = true ∧
      (rover.execute s).thrown = none ∧
      ∀ rest : List Char, rover.execute (s.take (i + 1) ++ rest) = rover.execute s) ∧
    ((example_rover [obstacle_at 0 1]).land origin .NORTH).execute ['f', 'f'] =
      ⟨none,
       { x := coordinate_t.ofInt 0, y := coordinate_t.ofInt 0, dir := .NORTH,
         is_stopped := true, landed := true },
       [.is_safe 0 (coordinate_t.ofInt 0) (coordinate_t.ofInt 1)]⟩ := by
  refine ⟨?_, by decide⟩
  intro rover s i c st hl hpre hc hfail
  have hnone := (Rover.instruction_eq_none rover.commands rover.sensors st c).2 hfail
  obtain ⟨hs, htake⟩ := split_at_index s i c hc
  have key : ∀ rest : List Char,
      rover.execute (s.take i ++ c :: rest) = rover.execute (s.take i ++ [c]) := by
    intro rest
    rw [Rover.execute_landed rover _ hl, Rover.execute_landed rover _ hl,
      Rover.execute_loop_append _ _ _ _ _ _ hpre, Rover.execute_loop_append _ _ _ _ _ _ hpre,
      Rover.execute_loop_cons_of_none _ _ c rest st hnone]
  have hfull : rover.execute s = rover.execute (s.take (i + 1)) := by
    rw [htake]
    conv_lhs => rw [hs]
    exact key _
  have hstop : (rover.execute (s.take (i + 1))).state.is_stopped = true := by
    rw [Rover.execute_landed rover _ hl]
    apply Rover.execute_loop_of_none
    rw [htake, Rover.instructions_append, hpre, Option.some_bind, Rover.instructions_cons, hnone]
    rfl
  refine ⟨hfull, hfull ▸ hstop, ?_, ?_⟩
  · rw [Rover.execute_landed rover _ hl]
    exact Rover.execute_loop_thrown _ _ _ _
  · intro rest
    rw [hfull, htake, List.append_assoc]
    exact key _

/-- C2 at the example: in "ff" on the rover landed at (0,0) facing NORTH
with (0,1) unsafe, the instruction at index 0 is the first that fails. -/
theorem C2_fail_fast_witness :
    ((example_rover [obstacle_at 0 1]).land origin .NORTH).execute ['f', 'f'] =
      ((example_rover [obstacle_at 0 1]).land origin .NORTH).execute (['f', 'f'].take (0 + 1)) ∧
    (((example_rover [obstacle_at 0 1]).land origin .NORTH).execute ['f', 'f']).state.is_stopped
      = true :=
  ⟨(C2_fail_fast.1 ((example_rover [obstacle_at 0 1]).land origin .NORTH) ['f', 'f'] 0 'f'
      ((example_rover [obstacle_at 0 1]).land origin .NORTH).state
      rfl rfl rfl (Or.inr ⟨.Move_forward, rfl, by decide⟩)).1,
   (C2_fail_fast.1 ((example_rover [obstacle_at 0 1]).land origin .NORTH) ['f', 'f'] 0 'f'
      ((example_rover [obstacle_at 0 1]).land origin .NORTH).state
      rfl rfl rfl (Or.inr ⟨.Move_forward, rfl, by decide⟩)).2.1⟩
/-- C3: on a landed rover, whatever `is_stopped` was at entry, `execute`
ends with `is_stopped = false` exactly when every instruction of the string
succeeds on the state left by its predecessors (every character bound, no
command throwing); the final state is then the one obtained by applying the
bound commands of all characters in order, each once, and nothing is thrown.
The value of `is_stopped` at entry has no influence on the call, and
`execute("")` returns the entry state with `is_stopped` cleared and nothing
else changed. -/
theorem C3_not_stopped_iff_all_succeed (rover : Rover) (s : List Char)
    (h : rover.state.landed = true) :
    ((rover.execute s).state.is_stopped = false ↔
      (Rover.instructions rover.commands rover.sensors s
        (rover.state.set_is_stopped false)).isSome = true) ∧
    (∀ st : RoverState,
      Rover.instructions rover.commands rover.sensors s (rover.state.set_is_stopped false)
        = some st →
      (rover.execute s).thrown = none ∧ (rover.execute s).state = st) ∧
    (∀ st : RoverState,
      Rover.instructions rover.commands rover.sensors s rover.state = some st →
      (rover.execute s).state = st.set_is_stopped false) ∧
    (∀ b : Bool,
      Rover.execute { rover with state := rover.state.set_is_stopped b } s = rover.execute s) ∧
    rover.execute [] = ⟨none, rover.state.set_is_stopped false, []⟩ := by
  have hex := Rover.execute_landed rover s h
  refine ⟨?_, ?_, ?_, ?_, ?_⟩
  · rw [hex]
    constructor
    · intro hs
      cases hi : Rover.instructions rover.commands rover.sensors s
          (rover.state.set_is_stopped false) with
      | none =>
        have := Rover.execute_loop_of_none _ _ _ _ hi
        rw [hs] at this
        exact absurd this (by decide)
      | some st => rfl
    · intro hs
      obtain ⟨st, hst⟩ := Option.isSome_iff_exists.1 hs
      rw [(Rover.execute_loop_of_some _ _ _ _ _ hst).2,
        (Rover.instructions_flags _ _ _ _ _ hst).2]
      rfl
  · intro st hst
    rw [hex]
    exact Rover.execute_loop_of_some _ _ _ _ _ hst
  · intro st hst
    rw [hex]
    apply (Rover.execute_loop_of_some _ _ _ _ _ _).2
    rw [Rover.instructions_set_stopped, hst]
    rfl
  · intro b
    rw [hex, Rover.execute_landed _ s (by simpa using h)]
    simp
  · rw [Rover.execute_landed rover [] h]
    rfl

/-- C3 at the rover of C2's example after its stopped call `execute("ff")`:
the next call `execute("")` clears `is_stopped` and keeps the pose, and
`execute("rf")`, both of whose instructions succeed, ends not stopped at
(1,0) facing EAST. -/
theorem C3_not_stopped_iff_all_succeed_witness :
    ((((example_rover [obstacle_at 0 1]).land origin .NORTH).after_execute
        ['f', 'f']).state.landed = true ∧
      (((example_rover [obstacle_at 0 1]).land origin .NORTH).after_execute
        ['f', 'f']).state.is_stopped = true) ∧
    ((((example_rover [obstacle_at 0 1]).land origin .NORTH).after_execute ['f', 'f']).execute
        []).state =
      { x := coordinate_t.ofInt 0, y := coordinate_t.ofInt 0, dir := .NORTH,
        is_stopped := false, landed := true } ∧
    ((((example_rover [obstacle_at 0 1]).land origin .NORTH).after_execute ['f', 'f']).execute
        ['r', 'f']).state =
      { x := coordinate_t.ofInt 1, y := coordinate_t.ofInt 0, dir := .EAST,
        is_stopped := false, landed := true } :=
  ⟨⟨by decide, by decide⟩,
   ((C3_not_stopped_iff_all_succeed
      (((example_rover [obstacle_at 0 1]).land origin .NORTH).after_execute ['f', 'f']) []
      (by decide)).2.2.2.2 ▸ rfl),
   ((C3_not_stopped_iff_all_succeed
      (((example_rover [obstacle_at 0 1]).land origin .NORTH).after_execute ['f', 'f'])
      ['r', 'f'] (by decide)).2.1 _ (by decide)).2⟩

/-- The call on a landed rover whose instruction at index `i` is the first
to fail: the instructions before it, then that instruction alone. -/
theorem Rover.execute_at_failure (rover : Rover) (s : List Char) (i : Nat) (c : Char)
    (st : RoverState) (hl : rover.state.landed = true)
    (hpre : Rover.instructions rover.commands rover.sensors (s.take i)
      (rover.state.set_is_stopped false) = some st)
    (hc : s[i]? = some c)
    (hnone : Rover.instruction rover.commands rover.sensors st c = none) :
    rover.execute s =
      ⟨(Rover.execute_loop rover.commands rover.sensors [c] st).thrown,
       (Rover.execute_loop rover.commands rover.sensors [c] st).state,
       (rover.execute (s.take i)).trace ++
         (Rover.execute_loop rover.commands rover.sensors [c] st).trace⟩ := by
  obtain ⟨hs, -⟩ := split_at_index s i c hc
  rw [Rover.execute_landed rover (s.take i) hl]
  conv_lhs => rw [hs]
  rw [Rover.execute_landed rover _ hl, Rover.execute_loop_append _ _ _ _ _ _ hpre,
    Rover.execute_loop_cons_of_none _ _ c _ st hnone]

/-- C4: when some sensor reports the candidate cell (position plus the
displacement of the orientation) unsafe, `Move_forward::execute` throws
`UnsafeLocation` and leaves the whole state as it was; and when that happens
at the instruction of index `i` of `Rover::execute` on a landed rover (the
instructions before it having succeeded and left the state `st`), the call
returns normally with the state `st` in which only `is_stopped` was set:
position and orientation are those just before the instruction. -/
theorem C4_move_forward_blocked :
    (∀ (state : RoverState) (sensors : List Sensor),
      (∃ sensor ∈ sensors,
        sensor (state.x.add (val state.dir).1) (state.y.add (val state.dir).2) = false) →
      (Move_forward.execute state sensors).thrown = some .UnsafeLocation ∧
      (Move_forward.execute state sensors).state = state) ∧
    (∀ (rover : Rover) (s : List Char) (i : Nat) (c : Char) (st : RoverState),
      rover.state.landed = true →
      Rover.instructions rover.commands rover.sensors (s.take i)
        (rover.state.set_is_stopped false) = some st →
      s[i]? = some c →
      rover.commands c = some .Move_forward →
      (∃ sensor ∈ rover.sensors,
        sensor (st.x.add (val st.dir).1) (st.y.add (val st.dir).2) = false) →
      (rover.execute s).thrown = none ∧
      (rover.execute s).state = st.set_is_stopped true ∧
      (rover.execute s).state.is_stopped = true ∧
      (rover.execute s).state.x = st.x ∧ (rover.execute s).state.y = st.y ∧
      (rover.execute s).state.dir = st.dir) := by
  have hmf : ∀ (state : RoverState) (sensors : List Sensor),
      (∃ sensor ∈ sensors,
        sensor (state.x.add (val state.dir).1) (state.y.add (val state.dir).2) = false) →
      (Move_forward.execute state sensors).thrown = some .UnsafeLocation ∧
      (Move_forward.execute state sensors).state = state := by
    intro state sensors ⟨sensor, hmem, hun⟩
    have hne : ¬ (Move_forward.check state.next_location sensors 0).1 = none := by
      rw [Move_forward.check_none_iff]
      intro hall
      have := hall sensor hmem
      simp only [RoverState.next_location] at this
      rw [hun] at this
      exact absurd this (by decide)
    rw [Move_forward.execute_eq_check, if_neg hne]
    exact ⟨rfl, rfl⟩
  refine ⟨hmf, ?_⟩
  intro rover s i c st hl hpre hc hbound hun
  obtain ⟨ht, hst⟩ := hmf st rover.sensors hun
  have hnone : Rover.instruction rover.commands rover.sensors st c = none :=
    (Rover.instruction_eq_none _ _ _ _).2 (Or.inr ⟨.Move_forward, hbound, ht⟩)
  rw [Rover.execute_at_failure rover s i c st hl hpre hc hnone]
  have hloop : Rover.execute_loop rover.commands rover.sensors [c] st =
      ⟨none, st.set_is_stopped true, (Move_forward.execute st rover.sensors).trace⟩ := by
    have ht1 : (Command.execute .Move_forward st rover.sensors).thrown
        = some .UnsafeLocation := ht
    have hst1 : (Command.execute .Move_forward st rover.sensors).state = st := hst
    simp only [Rover.execute_loop, hbound, ht1, hst1]
    rfl
  rw [hloop]
  exact ⟨rfl, rfl, rfl, rfl, rfl, rfl⟩

/-- C4 at the example: (0,1) unsafe, the rover at (0,0) facing NORTH, and
the string "rlf" whose instruction of index 2 is the blocked move. -/
theorem C4_move_forward_blocked_witness :
    (Move_forward.execute ((example_rover [obstacle_at 0 1]).land origin .NORTH).state
        [obstacle_at 0 1]).thrown = some .UnsafeLocation ∧
    (((example_rover [obstacle_at 0 1]).land origin .NORTH).execute ['r', 'l', 'f']).state =
      { x := coordinate_t.ofInt 0, y := coordinate_t.ofInt 0, dir := .NORTH,
        is_stopped := true, landed := true } :=
  ⟨(C4_move_forward_blocked.1 ((example_rover [obstacle_at 0 1]).land origin .NORTH).state
      [obstacle_at 0 1] ⟨obstacle_at 0 1, by simp, by decide⟩).1,
   (C4_move_forward_blocked.2 ((example_rover [obstacle_at 0 1]).land origin .NORTH)
      ['r', 'l', 'f'] 2 'f' ((example_rover [obstacle_at 0 1]).land origin .NORTH).state
      rfl (by decide) rfl rfl ⟨obstacle_at 0 1, by simp [Rover.land, example_rover], by decide⟩).2.1⟩
/-- Inside the 32-bit range the reduction changes nothing. -/
theorem wrap32_of_range (v : Int) (h : -2147483648 ≤ v ∧ v ≤ 2147483647) : wrap32 v = v := by
  unfold wrap32
  omega

/-- The addition of `coordinate_t` is the addition of integers whenever the
sum is representable. -/
theorem coordinate_t.add_val (a b : coordinate_t)
    (h : -2147483648 ≤ a.val + b.val ∧ a.val + b.val ≤ 2147483647) :
    (a.add b).val = a.val + b.val :=
  wrap32_of_range _ h

/-- The displacements of the four directions, as integers. -/
theorem val_table (dir : Direction) :
    ((val dir).1.val, (val dir).2.val) =
      match dir with
      | .NORTH => (0, 1)
      | .EAST => (1, 0)
      | .SOUTH => (0, -1)
      | .WEST => (-1, 0) := by
  cases dir <;> decide

/-- C5: `Move_forward::execute` returns normally exactly when every sensor
reports the candidate cell safe, and throws `UnsafeLocation` otherwise; the
candidate is the cell `next_location` returns, `(x + dx, y + dy)` in the
arithmetic of `coordinate_t`, with `(dx, dy)` = (0,1) for NORTH, (1,0) for
EAST, (0,-1) for SOUTH, (-1,0) for WEST; the sums are the exact integer sums
whenever these fit the 32-bit range.  On success the new position is that
cell, and orientation, `landed` and `is_stopped` are unchanged. -/
theorem C5_move_forward (state : RoverState) (sensors : List Sensor) :
    ((Move_forward.execute state sensors).thrown = none ↔
      ∀ sensor ∈ sensors,
        sensor (state.x.add (val state.dir).1) (state.y.add (val state.dir).2) = true) ∧
    ((Move_forward.execute state sensors).thrown ≠ none →
      (Move_forward.execute state sensors).thrown = some .UnsafeLocation) ∧
    ((Move_forward.execute state sensors).thrown = none →
      (Move_forward.execute state sensors).state =
        { x := state.x.add (val state.dir).1, y := state.y.add (val state.dir).2,
          dir := state.dir, is_stopped := state.is_stopped, landed := state.landed }) ∧
    state.next_location =
      (state.x.add (val state.dir).1, state.y.add (val state.dir).2) ∧
    (((val state.dir).1.val, (val state.dir).2.val) =
      match state.dir with
      | .NORTH => (0, 1)
      | .EAST => (1, 0)
      | .SOUTH => (0, -1)
      | .WEST => (-1, 0)) ∧
    (-2147483648 ≤ state.x.val + (val state.dir).1.val ∧
      state.x.val + (val state.dir).1.val ≤ 2147483647 →
      (state.x.add (val state.dir).1).val = state.x.val + (val state.dir).1.val) ∧
    (-2147483648 ≤ state.y.val + (val state.dir).2.val ∧
      state.y.val + (val state.dir).2.val ≤ 2147483647 →
      (state.y.add (val state.dir).2).val = state.y.val + (val state.dir).2.val) := by
  have hiff : (Move_forward.execute state sensors).thrown = none ↔
      ∀ sensor ∈ sensors,
        sensor (state.x.add (val state.dir).1) (state.y.add (val state.dir).2) = true := by
    rw [Move_forward.execute_eq_check, ← Move_forward.check_none_iff
      (state.x.add (val state.dir).1, state.y.add (val state.dir).2) sensors 0]
    simp only [RoverState.next_location]
    split <;> simp_all
  refine ⟨hiff, ?_, ?_, rfl, val_table state.dir, coordinate_t.add_val _ _,
    coordinate_t.add_val _ _⟩
  · intro hne
    rcases Move_forward.forward_thrown state sensors with h | h
    · exact absurd h hne
    · exact h
  · intro hok
    rw [Move_forward.execute_eq_check] at hok ⊢
    split at hok
    · rename_i hc
      rw [if_pos hc]
      rfl
    · simp at hok

/-- C5 at a rover at (3,-2) facing WEST with two sensors that report the
candidate (2,-2) safe: the move succeeds and ends at (2,-2). -/
theorem C5_move_forward_witness :
    (Move_forward.execute
        { x := coordinate_t.ofInt 3, y := coordinate_t.ofInt (-2), dir := .WEST,
          is_stopped := false, landed := true }
        [obstacle_at 0 1, obstacle_at 3 (-2)]).state =
      { x := coordinate_t.ofInt 2, y := coordinate_t.ofInt (-2), dir := .WEST,
        is_stopped := false, landed := true } ∧
    (coordinate_t.add (coordinate_t.ofInt 3) (val .WEST).1).val = 3 + (-1) :=
  ⟨(C5_move_forward
      { x := coordinate_t.ofInt 3, y := coordinate_t.ofInt (-2), dir := .WEST,
        is_stopped := false, landed := true }
      [obstacle_at 0 1, obstacle_at 3 (-2)]).2.2.1 (by decide) ▸ by decide,
   (C5_move_forward
      { x := coordinate_t.ofInt 3, y := coordinate_t.ofInt (-2), dir := .WEST,
        is_stopped := false, landed := true }
      [obstacle_at 0 1, obstacle_at 3 (-2)]).2.2.2.2.2.1 (by decide)⟩
/-- Two right turns reverse the displacement: adding the displacement of the
reversed heading is subtracting the displacement of the heading. -/
theorem add_val_reversed (a b : coordinate_t) (dir : Direction) :
    a.add (val (Direction.ofInt (((Direction.ofInt ((dir.toInt + 1) % 4)).toInt + 1) % 4))).1
      = a.sub (val dir).1 ∧
    b.add (val (Direction.ofInt (((Direction.ofInt ((dir.toInt + 1) % 4)).toInt + 1) % 4))).2
      = b.sub (val dir).2 := by
  obtain ⟨a, ha⟩ := a
  obtain ⟨b, hb⟩ := b
  cases dir <;>
    simp [coordinate_t.add, coordinate_t.sub, val, coordinate_t.ofInt, Direction.toInt,
      Direction.ofInt, wrap32] <;> omega

/-- Four right turns restore the heading. -/
theorem RoverState.turn_right_four (s : RoverState) :
    s.turn_right.turn_right.turn_right.turn_right = s := by
  obtain ⟨x, y, dir, st, l⟩ := s
  cases dir <;> simp [RoverState.turn_right, Direction.toInt, Direction.ofInt]

/-- The candidate of the reversed heading is the cell behind the rover. -/
theorem RoverState.next_location_reversed (s : RoverState) :
    s.turn_right.turn_right.next_location = (s.x.sub (val s.dir).1, s.y.sub (val s.dir).2) := by
  have h := add_val_reversed s.x s.y s.dir
  simp only [RoverState.next_location, RoverState.turn_right]
  rw [h.1, h.2]

/-- The reversed rover moved one step and turned back. -/
theorem RoverState.update_location_reversed (s : RoverState) :
    s.turn_right.turn_right.update_location.turn_right.turn_right =
      { s with x := s.x.sub (val s.dir).1, y := s.y.sub (val s.dir).2 } := by
  have h := add_val_reversed s.x s.y s.dir
  have h4 := RoverState.turn_right_four s
  simp only [RoverState.update_location, RoverState.turn_right] at h4 ⊢
  rw [h.1, h.2]
  simp only [RoverState.mk.injEq, true_and, and_true]
  have := congrArg RoverState.dir h4
  simpa using this

theorem Move_forward.check_none_iff_all (new_coords : coordinates_t) (sensors : List Sensor)
    (i : Nat) :
    (Move_forward.check new_coords sensors i).1 = none ↔
      sensors.all (fun sensor => sensor new_coords.1 new_coords.2) = true := by
  rw [Move_forward.check_none_iff, List.all_eq_true]

/-- The method `Move_backward::execute` in one equation: the sensors are shown the cell
behind the rover; the rover moves there when all report it safe, and
otherwise `UnsafeLocation` is thrown from the unchanged state. -/
theorem Move_backward.execute_eq_behind (state : RoverState) (sensors : List Sensor) :
    Move_backward.execute state sensors =
      if (Move_forward.check (state.x.sub (val state.dir).1, state.y.sub (val state.dir).2)
            sensors 0).1 = none then
        ⟨none, { state with x := state.x.sub (val state.dir).1,
                            y := state.y.sub (val state.dir).2 },
          (Move_forward.check (state.x.sub (val state.dir).1, state.y.sub (val state.dir).2)
            sensors 0).2 ++
          [.update_location (state.x.sub (val state.dir).1) (state.y.sub (val state.dir).2)]⟩
      else
        ⟨some .UnsafeLocation, state,
          (Move_forward.check (state.x.sub (val state.dir).1, state.y.sub (val state.dir).2)
            sensors 0).2⟩ := by
  rw [Move_backward.execute_eq_forward, Move_forward.execute_eq_check, RoverState.next_location_reversed]
  split
  · simp only [RoverState.update_location_reversed]
    have h := add_val_reversed state.x state.y state.dir
    simp only [RoverState.update_location, RoverState.turn_right]
    rw [h.1, h.2]
  · simp only [RoverState.turn_right_four]
/-- Every event of the sensor loop is a call of `is_safe` on the candidate. -/
theorem Move_forward.check_trace (new_coords : coordinates_t) (sensors : List Sensor) (i : Nat) :
    ∀ e ∈ (Move_forward.check new_coords sensors i).2,
      ∃ j, e = .is_safe j new_coords.1 new_coords.2 := by
  induction sensors generalizing i with
  | nil => simp [Move_forward.check]
  | cons sensor rest ih =>
    intro e he
    simp only [Move_forward.check] at he
    split at he
    · simp only [List.mem_singleton] at he
      exact ⟨i, he⟩
    · simp only [List.mem_cons] at he
      rcases he with he | he
      · exact ⟨i, he⟩
      · exact ih (i + 1) e he

/-- Adding a displacement and subtracting it again, in `coordinate_t`. -/
theorem coordinate_t.add_sub_cancel (a b : coordinate_t) : (a.add b).sub b = a := by
  obtain ⟨a, ha⟩ := a
  obtain ⟨b, hb⟩ := b
  simp only [coordinate_t.add, coordinate_t.sub, wrap32, Subtype.mk.injEq]
  omega

/-- Subtracting a displacement and adding it again, in `coordinate_t`. -/
theorem coordinate_t.sub_add_cancel (a b : coordinate_t) : (a.sub b).add b = a := by
  obtain ⟨a, ha⟩ := a
  obtain ⟨b, hb⟩ := b
  simp only [coordinate_t.add, coordinate_t.sub, wrap32, Subtype.mk.injEq]
  omega

/-- C6: `Move_backward::execute` (two right turns, the forward move, two
right turns) and the direct reverse-displacement command of the
specification have the same outcome and the same final state for every state
and every sensor list; the orientation is unchanged in both cases; and the
sensor calls `Move_backward` makes are those of the sensor loop run on the
cell `position - displacement(orientation)`, so that is the cell shown to
the sensors. -/
theorem C6_move_backward_is_reverse_displacement (state : RoverState)
    (sensors : List Sensor) :
    (Move_backward.execute state sensors).thrown = (reverse_displacement_move state sensors).1 ∧
    (Move_backward.execute state sensors).state = (reverse_displacement_move state sensors).2 ∧
    (Move_backward.execute state sensors).state.dir = state.dir ∧
    (Move_backward.execute state sensors).trace =
      (Move_forward.check (state.x.sub (val state.dir).1, state.y.sub (val state.dir).2)
          sensors 0).2 ++
        (if (reverse_displacement_move state sensors).1 = none then
          [.update_location (state.x.sub (val state.dir).1) (state.y.sub (val state.dir).2)]
        else []) ∧
    (∀ (i : Nat) (x y : coordinate_t),
      Event.is_safe i x y ∈ (Move_backward.execute state sensors).trace →
      x = state.x.sub (val state.dir).1 ∧ y = state.y.sub (val state.dir).2) := by
  have hb := Move_backward.execute_eq_behind state sensors
  have hall := Move_forward.check_none_iff_all
    (state.x.sub (val state.dir).1, state.y.sub (val state.dir).2) sensors 0
  have htr := Move_forward.check_trace
    (state.x.sub (val state.dir).1, state.y.sub (val state.dir).2) sensors 0
  by_cases hc : (Move_forward.check
      (state.x.sub (val state.dir).1, state.y.sub (val state.dir).2) sensors 0).1 = none
  · rw [if_pos hc] at hb
    have hd : reverse_displacement_move state sensors =
        (none, { state with x := state.x.sub (val state.dir).1,
                            y := state.y.sub (val state.dir).2 }) := by
      simp only [reverse_displacement_move]
      rw [if_pos (hall.1 hc)]
    rw [hb, hd]
    refine ⟨rfl, rfl, rfl, by simp, ?_⟩
    intro i x y hmem
    simp only [List.mem_append, List.mem_singleton] at hmem
    rcases hmem with hmem | hmem
    · obtain ⟨j, hj⟩ := htr _ hmem
      simp only [Event.is_safe.injEq] at hj
      exact ⟨hj.2.1, hj.2.2⟩
    · cases hmem
  · rw [if_neg hc] at hb
    have hd : reverse_displacement_move state sensors = (some .UnsafeLocation, state) := by
      simp only [reverse_displacement_move]
      rw [if_neg (fun h => hc (hall.2 h))]
    rw [hb, hd]
    refine ⟨rfl, rfl, rfl, by simp, ?_⟩
    intro i x y hmem
    obtain ⟨j, hj⟩ := htr _ hmem
    simp only [Event.is_safe.injEq] at hj
    exact ⟨hj.2.1, hj.2.2⟩

/-- C6 at a rover at (0,0) facing NORTH with one sensor that reports
(0,-1) unsafe: the only cell shown to the sensor is (0,-1), the cell behind
the rover. -/
theorem C6_move_backward_is_reverse_displacement_witness :
    Event.is_safe 0 (coordinate_t.ofInt 0) (coordinate_t.ofInt (-1)) ∈
      (Move_backward.execute ((example_rover []).land origin .NORTH).state
        [obstacle_at 0 (-1)]).trace ∧
    coordinate_t.ofInt 0 =
      ((example_rover []).land origin .NORTH).state.x.sub
        (val ((example_rover []).land origin .NORTH).state.dir).1 ∧
    coordinate_t.ofInt (-1) =
      ((example_rover []).land origin .NORTH).state.y.sub
        (val ((example_rover []).land origin .NORTH).state.dir).2 :=
  ⟨by decide,
   (C6_move_backward_is_reverse_displacement ((example_rover []).land origin .NORTH).state
      [obstacle_at 0 (-1)]).2.2.2.2 0 (coordinate_t.ofInt 0) (coordinate_t.ofInt (-1))
      (by decide)⟩

/-- C7: when some sensor reports the cell behind the rover unsafe,
`Move_backward::execute` throws `UnsafeLocation` to its caller and the state
after the failure is the state before the call: position unchanged and
orientation back to the original heading. -/
theorem C7_move_backward_blocked (state : RoverState) (sensors : List Sensor)
    (h : ∃ sensor ∈ sensors,
      sensor (state.x.sub (val state.dir).1) (state.y.sub (val state.dir).2) = false) :
    (Move_backward.execute state sensors).thrown = some .UnsafeLocation ∧
    (Move_backward.execute state sensors).state = state := by
  obtain ⟨sensor, hmem, hun⟩ := h
  have hne : ¬ (Move_forward.check
      (state.x.sub (val state.dir).1, state.y.sub (val state.dir).2) sensors 0).1 = none := by
    rw [Move_forward.check_none_iff]
    intro hall
    have := hall sensor hmem
    rw [hun] at this
    exact absurd this (by decide)
  rw [Move_backward.execute_eq_behind, if_neg hne]
  exact ⟨rfl, rfl⟩

/-- C7 at a rover at (0,0) facing NORTH with the cell behind it, (0,-1),
unsafe: the backward move throws and the rover still faces NORTH at (0,0). -/
theorem C7_move_backward_blocked_witness :
    Move_backward.execute ((example_rover []).land origin .NORTH).state [obstacle_at 0 (-1)] =
      ⟨some .UnsafeLocation,
       { x := coordinate_t.ofInt 0, y := coordinate_t.ofInt 0, dir := .NORTH,
         is_stopped := false, landed := true },
       [.is_safe 0 (coordinate_t.ofInt 0) (coordinate_t.ofInt (-1))]⟩ ∧
    (Move_backward.execute ((example_rover []).land origin .NORTH).state
      [obstacle_at 0 (-1)]).state = ((example_rover []).land origin .NORTH).state :=
  ⟨by decide,
   (C7_move_backward_blocked ((example_rover []).land origin .NORTH).state [obstacle_at 0 (-1)]
      ⟨obstacle_at 0 (-1), by simp, by decide⟩).2⟩

/-- C8: round trip.  When `Move_forward` succeeds and the `Move_backward`
that follows it succeeds, the state is the original one again (position,
orientation and flags); and likewise for `Move_backward` followed by
`Move_forward`.  The state is arbitrary, so this holds for all four
orientations. -/
theorem C8_round_trip (state : RoverState) (sensors : List Sensor) :
    ((Move_forward.execute state sensors).thrown = none →
      (Move_backward.execute (Move_forward.execute state sensors).state sensors).thrown = none →
      (Move_backward.execute (Move_forward.execute state sensors).state sensors).state = state) ∧
    ((Move_backward.execute state sensors).thrown = none →
      (Move_forward.execute (Move_backward.execute state sensors).state sensors).thrown = none →
      (Move_forward.execute (Move_backward.execute state sensors).state sensors).state
        = state) := by
  constructor
  · intro h1 h2
    have hs : (Move_forward.execute state sensors).state = state.update_location := by
      rw [Move_forward.execute_eq_check] at h1 ⊢
      split at h1
      · rename_i hc
        rw [if_pos hc]
      · simp at h1
    rw [hs] at h2 ⊢
    rw [Move_backward.execute_eq_behind] at h2 ⊢
    split at h2
    · rename_i hc
      rw [if_pos hc]
      simp only [RoverState.update_location, coordinate_t.add_sub_cancel]
    · simp at h2
  · intro h1 h2
    have hs : (Move_backward.execute state sensors).state =
        { state with x := state.x.sub (val state.dir).1,
                     y := state.y.sub (val state.dir).2 } := by
      rw [Move_backward.execute_eq_behind] at h1 ⊢
      split at h1
      · rename_i hc
        rw [if_pos hc]
      · simp at h1
    rw [hs] at h2 ⊢
    rw [Move_forward.execute_eq_check] at h2 ⊢
    split at h2
    · rename_i hc
      rw [if_pos hc]
      simp only [RoverState.update_location, coordinate_t.sub_add_cancel]
    · simp at h2

/-- C8 at a rover at (0,0) facing EAST with an obstacle at (5,5): forward
then backward, and backward then forward, both end at (0,0) facing EAST. -/
theorem C8_round_trip_witness :
    (Move_backward.execute
        (Move_forward.execute ((example_rover []).land origin .EAST).state
          [obstacle_at 5 5]).state [obstacle_at 5 5]).state
      = ((example_rover []).land origin .EAST).state ∧
    (Move_forward.execute
        (Move_backward.execute ((example_rover []).land origin .EAST).state
          [obstacle_at 5 5]).state [obstacle_at 5 5]).state
      = ((example_rover []).land origin .EAST).state :=
  ⟨(C8_round_trip ((example_rover []).land origin .EAST).state [obstacle_at 5 5]).1
      (by decide) (by decide),
   (C8_round_trip ((example_rover []).land origin .EAST).state [obstacle_at 5 5]).2
      (by decide) (by decide)⟩
/-! ## Lemmas on `Compose::execute` -/

theorem children_in_order_nil (sensors : List Sensor) (state : RoverState) :
    children_in_order sensors [] state = some state := rfl

theorem children_in_order_cons (sensors : List Sensor) (c : Command) (rest : List Command)
    (state : RoverState) :
    children_in_order sensors (c :: rest) state =
      if (c.execute state sensors).thrown = none then
        children_in_order sensors rest (c.execute state sensors).state
      else none := by
  simp only [children_in_order, List.foldlM_cons, Option.bind_eq_bind]
  split <;> simp

theorem Command.execute_Compose (commands : List Command) (state : RoverState)
    (sensors : List Sensor) :
    Command.execute (.Compose commands) state sensors = Compose.execute commands state sensors := by
  simp [Command.execute]

/-- The loop of a composite goes on while its children succeed: after a run
of successful children it continues with the rest from the state they left. -/
theorem Compose.execute_append (sensors : List Sensor) (pre rest : List Command)
    (state st1 : RoverState) (h : children_in_order sensors pre state = some st1) :
    Compose.execute (pre ++ rest) state sensors =
      ⟨(Compose.execute rest st1 sensors).thrown, (Compose.execute rest st1 sensors).state,
       (Compose.execute pre state sensors).trace ++ (Compose.execute rest st1 sensors).trace⟩ := by
  induction pre generalizing state with
  | nil =>
    simp only [children_in_order_nil, Option.some.injEq] at h
    subst h
    simp [Compose.execute]
  | cons c pre ih =>
    rw [children_in_order_cons] at h
    by_cases ht : (c.execute state sensors).thrown = none
    · rw [if_pos ht] at h
      rw [List.cons_append]
      simp only [Compose.execute, ht]
      rw [ih _ h]
      simp
    · rw [if_neg ht] at h
      cases h

/-- A composite none of whose children throws returns normally. -/
theorem Compose.execute_of_some (sensors : List Sensor) (commands : List Command)
    (state st1 : RoverState) (h : children_in_order sensors commands state = some st1) :
    (Compose.execute commands state sensors).thrown = none ∧
    (Compose.execute commands state sensors).state = st1 := by
  have h1 := Compose.execute_append sensors commands [] state st1 h
  rw [List.append_nil] at h1
  rw [h1]
  simp [Compose.execute]

/-- A composite that returns normally has run all its children with success. -/
theorem Compose.children_of_execute (sensors : List Sensor) (commands : List Command)
    (state : RoverState) (h : (Compose.execute commands state sensors).thrown = none) :
    children_in_order sensors commands state =
      some (Compose.execute commands state sensors).state := by
  induction commands generalizing state with
  | nil => rfl
  | cons c rest ih =>
    rw [children_in_order_cons]
    simp only [Compose.execute] at h ⊢
    rcases Command.command_thrown c state sensors with ht | ht
    · simp only [ht] at h ⊢
      rw [if_pos trivial]
      exact ih _ h
    · simp [ht] at h

/-- C9: `Compose::execute` runs its children from left to right on the same
state and sensors.  When all of them succeed, it succeeds and its final state
is the one obtained by applying every child once in list order, and
conversely; a composite split in two runs the first part and then the second
from the state the first left, the traces following each other; and when the
children before some child succeed and that child throws, the composite
throws the same exception from the state that child left, whatever children
follow it.  Example: `Compose([rotate_right, move_forward])` on a rover
landed at (0,0) facing NORTH with no sensors gives (1,0) facing EAST. -/
theorem C9_compose :
    (∀ (sensors : List Sensor) (cs : List Command) (state st1 : RoverState),
      children_in_order sensors cs state = some st1 →
      (Command.execute (.Compose cs) state sensors).thrown = none ∧
      (Command.execute (.Compose cs) state sensors).state = st1) ∧
    (∀ (sensors : List Sensor) (cs : List Command) (state : RoverState),
      (Command.execute (.Compose cs) state sensors).thrown = none →
      children_in_order sensors cs state =
        some (Command.execute (.Compose cs) state sensors).state) ∧
    (∀ (sensors : List Sensor) (pre rest : List Command) (state st1 : RoverState),
      children_in_order sensors pre state = some st1 →
      Command.execute (.Compose (pre ++ rest)) state sensors =
        ⟨(Command.execute (.Compose rest) st1 sensors).thrown,
         (Command.execute (.Compose rest) st1 sensors).state,
         (Command.execute (.Compose pre) state sensors).trace ++
           (Command.execute (.Compose rest) st1 sensors).trace⟩) ∧
    (∀ (sensors : List Sensor) (pre rest : List Command) (c : Command)
      (state st1 : RoverState) (e : Exception),
      children_in_order sensors pre state = some st1 →
      (c.execute st1 sensors).thrown = some e →
      Command.execute (.Compose (pre ++ c :: rest)) state sensors =
        ⟨some e, (c.execute st1 sensors).state,
         (Command.execute (.Compose pre) state sensors).trace ++
           (c.execute st1 sensors).trace⟩) ∧
    Command.execute (.Compose [.Rotate_right, .Move_forward])
        ((example_rover []).land origin .NORTH).state [] =
      ⟨none,
       { x := coordinate_t.ofInt 1, y := coordinate_t.ofInt 0, dir := .EAST,
         is_stopped := false, landed := true },
       [.update_location (coordinate_t.ofInt 1) (coordinate_t.ofInt 0)]⟩ ∧
    (((example_rover []).land origin .NORTH).execute ['c']).state =
      { x := coordinate_t.ofInt 1, y := coordinate_t.ofInt 0, dir := .EAST,
        is_stopped := false, landed := true } := by
  refine ⟨?_, ?_, ?_, ?_, by decide, by decide⟩
  · intro sensors cs state st1 h
    rw [Command.execute_Compose]
    exact Compose.execute_of_some sensors cs state st1 h
  · intro sensors cs state h
    rw [Command.execute_Compose] at h ⊢
    exact Compose.children_of_execute sensors cs state h
  · intro sensors pre rest state st1 h
    simp only [Command.execute_Compose]
    exact Compose.execute_append sensors pre rest state st1 h
  · intro sensors pre rest c state st1 e h he
    simp only [Command.execute_Compose]
    rw [Compose.execute_append sensors pre (c :: rest) state st1 h]
    simp only [Compose.execute, he]

/-- C9 at a composite whose third child is blocked: with (0,1) unsafe, in
`Compose([rotate_left, rotate_right, move_forward, rotate_right])` the first
two children succeed, the third throws, and the fourth does not run (the
rover still faces NORTH). -/
theorem C9_compose_witness :
    Command.execute
        (.Compose ([.Rotate_left, .Rotate_right] ++ .Move_forward :: [.Rotate_right]))
        ((example_rover []).land origin .NORTH).state [obstacle_at 0 1] =
      ⟨some .UnsafeLocation,
       { x := coordinate_t.ofInt 0, y := coordinate_t.ofInt 0, dir := .NORTH,
         is_stopped := false, landed := true },
       [.is_safe 0 (coordinate_t.ofInt 0) (coordinate_t.ofInt 1)]⟩ :=
  (C9_compose.2.2.2.1 [obstacle_at 0 1] [.Rotate_left, .Rotate_right] [.Rotate_right]
    .Move_forward ((example_rover []).land origin .NORTH).state
    ((example_rover []).land origin .NORTH).state .UnsafeLocation (by decide) (by decide)).trans
    (by decide)
/-- C10: on a landed rover, when the instructions before index `i` all
succeed (leaving the state `st`) and the character at index `i` has no bound
command, `execute` returns normally, with `is_stopped = true` and position
and orientation as they were after the first `i` instructions (the state is
`st` with only `is_stopped` set), and with no event beyond those of the first
`i` instructions.  Example: landed at (0,0) facing NORTH with `q` unbound,
`execute("q")` gives `is_stopped = true`, position (0,0), orientation NORTH. -/
theorem C10_unbound_character :
    (∀ (rover : Rover) (s : List Char) (i : Nat) (c : Char) (st : RoverState),
      rover.state.landed = true →
      Rover.instructions rover.commands rover.sensors (s.take i)
        (rover.state.set_is_stopped false) = some st →
      s[i]? = some c →
      rover.commands c = none →
      (rover.execute s).thrown = none ∧
      (rover.execute s).state = st.set_is_stopped true ∧
      (rover.execute s).state.is_stopped = true ∧
      (rover.execute s).state.x = st.x ∧ (rover.execute s).state.y = st.y ∧
      (rover.execute s).state.dir = st.dir ∧
      (rover.execute s).trace = (rover.execute (s.take i)).trace) ∧
    ((example_rover []).land origin .NORTH).execute ['q'] =
      ⟨none,
       { x := coordinate_t.ofInt 0, y := coordinate_t.ofInt 0, dir := .NORTH,
         is_stopped := true, landed := true },
       []⟩ := by
  refine ⟨?_, by decide⟩
  intro rover s i c st hl hpre hc hun
  have hnone : Rover.instruction rover.commands rover.sensors st c = none :=
    (Rover.instruction_eq_none _ _ _ _).2 (Or.inl hun)
  rw [Rover.execute_at_failure rover s i c st hl hpre hc hnone]
  have hloop : Rover.execute_loop rover.commands rover.sensors [c] st =
      ⟨none, st.set_is_stopped true, []⟩ := by
    simp only [Rover.execute_loop, hun]
  rw [hloop]
  exact ⟨rfl, rfl, rfl, rfl, rfl, rfl, by simp⟩

/-- C10 at the string "rfq" on the rover landed at (0,0) facing NORTH: the
first two instructions succeed, `q` is unbound, and the call ends stopped at
(1,0) facing EAST. -/
theorem C10_unbound_character_witness :
    (((example_rover []).land origin .NORTH).execute ['r', 'f', 'q']).thrown = none ∧
    (((example_rover []).land origin .NORTH).execute ['r', 'f', 'q']).state =
      RoverState.set_is_stopped
        { x := coordinate_t.ofInt 1, y := coordinate_t.ofInt 0, dir := .EAST,
          is_stopped := false, landed := true } true :=
  ⟨(C10_unbound_character.1 ((example_rover []).land origin .NORTH) ['r', 'f', 'q'] 2 'q'
      { x := coordinate_t.ofInt 1, y := coordinate_t.ofInt 0, dir := .EAST,
        is_stopped := false, landed := true } rfl (by decide) rfl rfl).1,
   (C10_unbound_character.1 ((example_rover []).land origin .NORTH) ['r', 'f', 'q'] 2 'q'
      { x := coordinate_t.ofInt 1, y := coordinate_t.ofInt 0, dir := .EAST,
        is_stopped := false, landed := true } rfl (by decide) rfl rfl).2.1⟩

/-- C11: `land` has no failure path and, whatever the state before it (not
landed, landed, stopped or not), leaves the state with the given position
and direction, `landed = true` and `is_stopped = false`, the bindings and
sensors untouched; the result does not depend on the earlier state, so
`land(p2, d2)` after `land(p1, d1)` is `land(p2, d2)` alone and landing twice
at the same pose is landing once. -/
theorem C11_land (rover : Rover) (coords coords2 : coordinates_t)
    (direction direction2 : Direction) :
    (rover.land coords direction).state =
      { x := coords.1, y := coords.2, dir := direction, is_stopped := false, landed := true } ∧
    (rover.land coords direction).commands = rover.commands ∧
    (rover.land coords direction).sensors = rover.sensors ∧
    (∀ prior : RoverState,
      Rover.land { rover with state := prior } coords direction = rover.land coords direction) ∧
    (rover.land coords direction).land coords2 direction2 = rover.land coords2 direction2 ∧
    (rover.land coords direction).land coords direction = rover.land coords direction :=
  ⟨rfl, rfl, rfl, fun _ => rfl, rfl, rfl⟩

/-- The right turn and the left turn on the four directions. -/
theorem turn_table (dir : Direction) :
    Direction.ofInt ((dir.toInt + 1) % 4) =
      (match dir with
        | .NORTH => .EAST
        | .EAST => .SOUTH
        | .SOUTH => .WEST
        | .WEST => .NORTH) ∧
    Direction.ofInt ((dir.toInt + 3) % 4) =
      (match dir with
        | .NORTH => .WEST
        | .WEST => .SOUTH
        | .SOUTH => .EAST
        | .EAST => .NORTH) := by
  cases dir <;> exact ⟨by decide, by decide⟩

/-- A right turn undone by a left turn, and a left turn by a right turn. -/
theorem RoverState.turn_right_left (s : RoverState) :
    s.turn_right.turn_left = s ∧ s.turn_left.turn_right = s := by
  obtain ⟨x, y, dir, st, l⟩ := s
  cases dir <;> simp [RoverState.turn_right, RoverState.turn_left, Direction.toInt, Direction.ofInt]

/-- C12: for each of the four directions `turn_right` followed by
`turn_left`, and `turn_left` followed by `turn_right`, gives back the state
(direction, position, `landed`, `is_stopped`); the commands `Rotate_right`
and `Rotate_left` never throw, ask no sensor, and undo each other on every
state and for every sensor list. -/
theorem C12_rotations_inverse (state : RoverState) (sensors : List Sensor) :
    state.turn_right.turn_left = state ∧
    state.turn_left.turn_right = state ∧
    (Command.execute .Rotate_right state sensors).thrown = none ∧
    (Command.execute .Rotate_left state sensors).thrown = none ∧
    (Command.execute .Rotate_right state sensors).trace = [] ∧
    (Command.execute .Rotate_left state sensors).trace = [] ∧
    (Command.execute .Rotate_right state sensors).state = state.turn_right ∧
    (Command.execute .Rotate_left state sensors).state = state.turn_left ∧
    (Command.execute .Rotate_left (Command.execute .Rotate_right state sensors).state
      sensors).state = state ∧
    (Command.execute .Rotate_right (Command.execute .Rotate_left state sensors).state
      sensors).state = state ∧
    state.turn_right.x = state.x ∧ state.turn_right.y = state.y ∧
    state.turn_right.landed = state.landed ∧ state.turn_right.is_stopped = state.is_stopped ∧
    state.turn_left.x = state.x ∧ state.turn_left.y = state.y ∧
    state.turn_left.landed = state.landed ∧ state.turn_left.is_stopped = state.is_stopped := by
  have h := RoverState.turn_right_left state
  have hr : Command.execute .Rotate_right state sensors = ⟨none, state.turn_right, []⟩ := by
    simp [Command.execute, Rotate_right.execute]
  have hl : Command.execute .Rotate_left state sensors = ⟨none, state.turn_left, []⟩ := by
    simp [Command.execute, Rotate_left.execute]
  have hr2 : Command.execute .Rotate_right state.turn_left sensors
      = ⟨none, state.turn_left.turn_right, []⟩ := by
    simp [Command.execute, Rotate_right.execute]
  have hl2 : Command.execute .Rotate_left state.turn_right sensors
      = ⟨none, state.turn_right.turn_left, []⟩ := by
    simp [Command.execute, Rotate_left.execute]
  refine ⟨h.1, h.2, by rw [hr], by rw [hl], by rw [hr], by rw [hl], by rw [hr], by rw [hl],
    ?_, ?_, rfl, rfl, rfl, rfl, rfl, rfl, rfl, rfl⟩
  · rw [hr, hl2]
    exact h.1
  · rw [hl, hr2]
    exact h.2

/-- C13: `turn_right` maps NORTH to EAST, EAST to SOUTH, SOUTH to WEST and
WEST to NORTH, and `turn_left` runs the same cycle backwards, although the
enumerators are declared in the order SOUTH, WEST, NORTH, EAST (values 0 to
3); four right turns give back every state, and one, two or three right
turns never give back the direction. -/
theorem C13_turn_cycle (state : RoverState) :
    state.turn_right.dir =
      (match state.dir with
        | .NORTH => .EAST
        | .EAST => .SOUTH
        | .SOUTH => .WEST
        | .WEST => .NORTH) ∧
    state.turn_left.dir =
      (match state.dir with
        | .NORTH => .WEST
        | .WEST => .SOUTH
        | .SOUTH => .EAST
        | .EAST => .NORTH) ∧
    (Direction.SOUTH.toInt = 0 ∧ Direction.WEST.toInt = 1 ∧ Direction.NORTH.toInt = 2 ∧
      Direction.EAST.toInt = 3) ∧
    state.turn_right.turn_right.turn_right.turn_right = state ∧
    state.turn_right.dir ≠ state.dir ∧
    state.turn_right.turn_right.dir ≠ state.dir ∧
    state.turn_right.turn_right.turn_right.dir ≠ state.dir := by
  refine ⟨(turn_table state.dir).1, (turn_table state.dir).2, ⟨rfl, rfl, rfl, rfl⟩,
    RoverState.turn_right_four state, ?_, ?_, ?_⟩ <;>
  · obtain ⟨x, y, dir, st, l⟩ := state
    cases dir <;> simp [RoverState.turn_right, Direction.toInt, Direction.ofInt]

/-- The text of a landed rover starts with an opening bracket. -/
theorem print_landed_data (r : String) : ("(" ++ r).data = '(' :: r.data := by
  simp [String.data_append]

/-- The entries of `print_dir`: a blank and the name of the direction. -/
theorem print_dir_name (dir : Direction) :
    print_dir dir = " " ++
      (match dir with
        | .NORTH => "NORTH"
        | .EAST => "EAST"
        | .SOUTH => "SOUTH"
        | .WEST => "WEST") := by
  cases dir <;> decide

/-- C14: `operator<<` writes exactly "unknown" for a state that has not
landed, and otherwise "(" x ", " y ") " followed by the name of the
direction of the state (NORTH, EAST, SOUTH or WEST) and then " stopped" when
and only when `is_stopped` is set, `x` and `y` written in decimal; the text
of a landed state is never "unknown". -/
theorem C14_print (state : RoverState) (rover : Rover) :
    rover.print = rover.state.print ∧
    (state.landed = false → state.print = "unknown") ∧
    (state.landed = true →
      state.print =
        "(" ++ toString state.x.val ++ ", " ++ toString state.y.val ++ ") " ++
          (match state.dir with
            | .NORTH => "NORTH"
            | .EAST => "EAST"
            | .SOUTH => "SOUTH"
            | .WEST => "WEST") ++
          (if state.is_stopped = true then " stopped" else "")) ∧
    (state.landed = true → state.print ≠ "unknown") := by
  refine ⟨rfl, ?_, ?_, ?_⟩
  · intro h
    simp [RoverState.print, h]
  · intro h
    have h1 : (") " : String) = ")" ++ " " := by decide
    simp only [RoverState.print, h, print_dir_name, h1, String.append_assoc]
    rfl
  · intro h hu
    have hd := congrArg String.data hu
    simp only [RoverState.print, h] at hd
    rw [show (!true) = false from rfl, if_neg (by decide)] at hd
    simp only [String.append_assoc] at hd
    rw [print_landed_data] at hd
    have := (List.cons.inj hd).1
    exact absurd this (by decide)

/-- C14 at three rovers: one not landed, one landed at (0,0) facing NORTH,
and one stopped at (2,0) by a blocked third step back after a left turn. -/
theorem C14_print_witness :
    (example_rover []).print = "unknown" ∧
    ((example_rover []).land origin .NORTH).print = "(0, 0) NORTH" ∧
    (((example_rover [obstacle_at 3 0]).land origin .NORTH).after_execute
      ['l', 'b', 'b', 'b', 'f']).print = "(2, 0) WEST stopped" ∧
    ((example_rover []).land origin .NORTH).print ≠ "unknown" :=
  ⟨((C14_print (example_rover []).state (example_rover [])).2.1 rfl),
   ((C14_print ((example_rover []).land origin .NORTH).state
      ((example_rover []).land origin .NORTH)).2.2.1 rfl).trans (by decide),
   by decide,
   (C14_print ((example_rover []).land origin .NORTH).state
      ((example_rover []).land origin .NORTH)).2.2.2 rfl⟩

/-! ## Lemmas on `RoverBuilder` -/

/-- Calls that do not register the character `c` leave its binding alone. -/
theorem RoverBuilder.foldl_commands (calls : List BuilderCall) (builder : RoverBuilder)
    (c : Char) (h : ∀ func, BuilderCall.program_command c func ∉ calls) :
    (calls.foldl RoverBuilder.call builder).commands c = builder.commands c := by
  induction calls generalizing builder with
  | nil => rfl
  | cons call rest ih =>
    rw [List.foldl_cons, ih]
    · cases call with
      | program_command k func =>
        have hk : c ≠ k := by
          intro hck
          exact h func (by rw [hck]; exact List.mem_cons_self _ _)
        simp [RoverBuilder.call, RoverBuilder.program_command, hk]
      | add_sensor sensor => rfl
    · intro func hmem
      exact h func (List.mem_cons_of_mem _ hmem)

/-- The sensors of the builder are those it had, followed by the arguments of
the `add_sensor` calls in call order. -/
theorem RoverBuilder.foldl_sensors (calls : List BuilderCall) (builder : RoverBuilder) :
    (calls.foldl RoverBuilder.call builder).sensors =
      builder.sensors ++ calls.filterMap fun call =>
        match call with
        | .add_sensor sensor => some sensor
        | .program_command _ _ => none := by
  induction calls generalizing builder with
  | nil => simp
  | cons call rest ih =>
    rw [List.foldl_cons, ih]
    cases call with
    | program_command k func => simp [RoverBuilder.call, RoverBuilder.program_command]
    | add_sensor sensor => simp [RoverBuilder.call, RoverBuilder.add_sensor]

/-- C15: for every sequence of `program_command` and `add_sensor` calls on a
fresh builder followed by `build()`: a character registered by some call is
bound to the command of the last call that registered it; a character no call
registered is unbound; the sensors are the `add_sensor` arguments in call
order; and the rover starts not landed and not stopped (whatever the
uninitialised `x`, `y`, `dir` hold). -/
theorem C15_builder (calls : List BuilderCall) (x y : coordinate_t) (dir : Direction) :
    (∀ (before after : List BuilderCall) (c : Char) (func : Command),
      calls = before ++ .program_command c func :: after →
      (∀ func1, BuilderCall.program_command c func1 ∉ after) →
      ((RoverBuilder.calls calls).build x y dir).commands c = some func) ∧
    (∀ c : Char, (∀ func, BuilderCall.program_command c func ∉ calls) →
      ((RoverBuilder.calls calls).build x y dir).commands c = none) ∧
    ((RoverBuilder.calls calls).build x y dir).sensors =
      (calls.filterMap fun call =>
        match call with
        | .add_sensor sensor => some sensor
        | .program_command _ _ => none) ∧
    ((RoverBuilder.calls calls).build x y dir).state.landed = false ∧
    ((RoverBuilder.calls calls).build x y dir).state.is_stopped = false := by
  refine ⟨?_, ?_, ?_, rfl, rfl⟩
  · intro before after c func hcalls hafter
    subst hcalls
    show (List.foldl RoverBuilder.call RoverBuilder.new
      (before ++ .program_command c func :: after)).commands c = some func
    rw [List.foldl_append, List.foldl_cons, RoverBuilder.foldl_commands _ _ c hafter]
    simp [RoverBuilder.call, RoverBuilder.program_command]
  · intro c h
    show (List.foldl RoverBuilder.call RoverBuilder.new calls).commands c = none
    rw [RoverBuilder.foldl_commands _ _ c h]
    rfl
  · show (List.foldl RoverBuilder.call RoverBuilder.new calls).sensors = _
    rw [RoverBuilder.foldl_sensors]
    rfl

/-- C15 at a builder on which `f` is registered twice, first as
`Move_backward` and then as `Move_forward`, between two `add_sensor` calls:
the rover built moves forward on `f`, cannot read `q`, and asks the sensor
added first before the other (after landing at (0,0) facing NORTH, with (0,1)
unsafe for both sensors, "f" stops after one call, to the sensor of index 0). -/
theorem C15_builder_witness :
    ((RoverBuilder.calls
        [.add_sensor (obstacle_at 0 1), .program_command 'f' .Move_backward,
         .program_command 'r' .Rotate_right, .program_command 'f' .Move_forward,
         .add_sensor (obstacle_at 0 1)]).build
      (coordinate_t.ofInt 7) (coordinate_t.ofInt 7) .SOUTH).commands 'f' = some .Move_forward ∧
    ((RoverBuilder.calls
        [.add_sensor (obstacle_at 0 1), .program_command 'f' .Move_backward,
         .program_command 'r' .Rotate_right, .program_command 'f' .Move_forward,
         .add_sensor (obstacle_at 0 1)]).build
      (coordinate_t.ofInt 7) (coordinate_t.ofInt 7) .SOUTH).commands 'q' = none ∧
    ((((RoverBuilder.calls
        [.add_sensor (obstacle_at 0 1), .program_command 'f' .Move_backward,
         .program_command 'r' .Rotate_right, .program_command 'f' .Move_forward,
         .add_sensor (obstacle_at 0 1)]).build
      (coordinate_t.ofInt 7) (coordinate_t.ofInt 7) .SOUTH).land origin .NORTH).execute ['f'] =
      ⟨none,
       { x := coordinate_t.ofInt 0, y := coordinate_t.ofInt 0, dir := .NORTH,
         is_stopped := true, landed := true },
       [.is_safe 0 (coordinate_t.ofInt 0) (coordinate_t.ofInt 1)]⟩) :=
  ⟨(C15_builder _ (coordinate_t.ofInt 7) (coordinate_t.ofInt 7) .SOUTH).1
      [.add_sensor (obstacle_at 0 1), .program_command 'f' .Move_backward,
       .program_command 'r' .Rotate_right]
      [.add_sensor (obstacle_at 0 1)] 'f' .Move_forward rfl (by simp),
   (C15_builder _ (coordinate_t.ofInt 7) (coordinate_t.ofInt 7) .SOUTH).2.1 'q' (by simp),
   by decide⟩

/-! ## Lemmas on the sensor calls -/

/-- The sensor loop asks the sensors of indices `i`, `i + 1`, ... in order,
each about the candidate, up to and including the first that answers unsafe. -/
theorem Move_forward.check_queries (new_coords : coordinates_t) (sensors : List Sensor)
    (i : Nat) :
    (Move_forward.check new_coords sensors i).2 =
      (List.range' i
        (min (sensors.findIdx (fun sensor => !sensor new_coords.1 new_coords.2) + 1)
          sensors.length)).map
        (fun j => Event.is_safe j new_coords.1 new_coords.2) := by
  induction sensors generalizing i with
  | nil => simp [Move_forward.check]
  | cons sensor rest ih =>
    simp only [Move_forward.check, List.findIdx_cons, List.length_cons]
    by_cases h : (!sensor new_coords.1 new_coords.2) = true
    · rw [if_pos h, h]
      simp [List.range'_succ]
    · rw [if_neg h]
      simp only [Bool.not_eq_true] at h
      rw [h]
      simp only [cond_false]
      rw [ih (i + 1), Nat.add_min_add_right, List.range'_succ]
      rfl

theorem queries_append (t1 t2 : List Event) : queries (t1 ++ t2) = queries t1 ++ queries t2 := by
  simp [queries, List.filterMap_append]

theorem queries_map_is_safe (l : List Nat) (c : coordinates_t) :
    queries (l.map (fun j => Event.is_safe j c.1 c.2)) = l.map (fun j => (j, c)) := by
  induction l with
  | nil => rfl
  | cons a l ih =>
    simp only [List.map_cons]
    rw [← ih]
    rfl

/-- The sensor calls of one `Move_forward::execute`. -/
theorem Move_forward.execute_queries (state : RoverState) (sensors : List Sensor) :
    queries (Move_forward.execute state sensors).trace =
      (List.range
        (min (sensors.findIdx (fun sensor => !sensor state.next_location.1
            state.next_location.2) + 1) sensors.length)).map
        (fun j => (j, state.next_location)) := by
  rw [Move_forward.execute_eq_check, List.range_eq_range']
  split
  · rw [queries_append, Move_forward.check_queries, queries_map_is_safe]
    simp [queries]
  · rw [Move_forward.check_queries, queries_map_is_safe]
/-- C16: with the sensor calls read off the trace, one `Move_forward`
attempt asks the sensors of indices 0, 1, ..., `n - 1` in this order, each
once and each about the same candidate cell (position plus displacement),
where `n - 1` is the index of the first sensor that answers unsafe, or `n` is
the number of sensors when none does: on success every sensor was asked, on
failure the last sensor asked answered unsafe and those before it answered
safe.  `Rotate_left` and `Rotate_right` ask no sensor. -/
theorem C16_sensor_queries (state : RoverState) (sensors : List Sensor) :
    queries (Move_forward.execute state sensors).trace =
      (List.range
        (min (sensors.findIdx (fun sensor =>
            !sensor (state.x.add (val state.dir).1) (state.y.add (val state.dir).2)) + 1)
          sensors.length)).map
        (fun j => (j, (state.x.add (val state.dir).1, state.y.add (val state.dir).2))) ∧
    (queries (Move_forward.execute state sensors).trace).Nodup ∧
    ((Move_forward.execute state sensors).thrown = none →
      (queries (Move_forward.execute state sensors).trace).length = sensors.length) ∧
    ((Move_forward.execute state sensors).thrown ≠ none →
      ∃ h : sensors.findIdx (fun sensor =>
          !sensor (state.x.add (val state.dir).1) (state.y.add (val state.dir).2))
          < sensors.length,
        (queries (Move_forward.execute state sensors).trace).length =
          sensors.findIdx (fun sensor =>
            !sensor (state.x.add (val state.dir).1) (state.y.add (val state.dir).2)) + 1 ∧
        sensors[sensors.findIdx (fun sensor =>
            !sensor (state.x.add (val state.dir).1) (state.y.add (val state.dir).2))]
          (state.x.add (val state.dir).1) (state.y.add (val state.dir).2) = false ∧
        ∀ (j : Nat) (hj : j < sensors.length),
          j < sensors.findIdx (fun sensor =>
            !sensor (state.x.add (val state.dir).1) (state.y.add (val state.dir).2)) →
          sensors[j] (state.x.add (val state.dir).1) (state.y.add (val state.dir).2) = true) ∧
    queries (Command.execute .Rotate_left state sensors).trace = [] ∧
    queries (Command.execute .Rotate_right state sensors).trace = [] ∧
    (Command.execute .Rotate_left state sensors).trace = [] ∧
    (Command.execute .Rotate_right state sensors).trace = [] := by
  have hq := Move_forward.execute_queries state sensors
  simp only [RoverState.next_location] at hq
  have hiff := Move_forward.check_none_iff
    (state.x.add (val state.dir).1, state.y.add (val state.dir).2) sensors 0
  have hthrown : (Move_forward.execute state sensors).thrown = none ↔
      (Move_forward.check
        (state.x.add (val state.dir).1, state.y.add (val state.dir).2) sensors 0).1 = none := by
    rw [Move_forward.execute_eq_check]
    simp only [RoverState.next_location]
    split <;> simp_all
  refine ⟨hq, ?_, ?_, ?_, ?_, ?_, ?_, ?_⟩
  · rw [hq]
    apply List.Nodup.map
    · intro a b hab
      exact (Prod.mk.inj hab).1
    · exact List.nodup_range _
  · intro hok
    have hall := hiff.1 (hthrown.1 hok)
    have hlen : sensors.findIdx (fun sensor =>
        !sensor (state.x.add (val state.dir).1) (state.y.add (val state.dir).2))
        = sensors.length := by
      apply List.findIdx_eq_length_of_false
      intro sensor hmem
      simp [hall sensor hmem]
    rw [hq, List.length_map, List.length_range, hlen]
    exact Nat.min_eq_right (Nat.le_succ _)
  · intro hne
    have hex : ∃ sensor ∈ sensors,
        (fun sensor : Sensor =>
          !sensor (state.x.add (val state.dir).1) (state.y.add (val state.dir).2)) sensor
          = true := by
      by_contra hcon
      apply hne
      rw [hthrown, hiff]
      intro sensor hmem
      by_contra hs
      exact hcon ⟨sensor, hmem, by simpa using hs⟩
    have hlt := List.findIdx_lt_length_of_exists hex
    refine ⟨hlt, ?_, ?_, ?_⟩
    · rw [hq, List.length_map, List.length_range]
      exact Nat.min_eq_left hlt
    · have := @List.findIdx_getElem _ (fun sensor : Sensor =>
        !sensor (state.x.add (val state.dir).1) (state.y.add (val state.dir).2)) sensors hlt
      simpa using this
    · intro j hj hjlt
      have := List.not_of_lt_findIdx hjlt
      simpa using this
  · simp [Command.execute, Rotate_left.execute, queries]
  · simp [Command.execute, Rotate_right.execute, queries]
  · simp [Command.execute, Rotate_left.execute]
  · simp [Command.execute, Rotate_right.execute]

/-- C16 at a rover at (0,0) facing NORTH with three sensors of which the
second and the third report (0,1) unsafe: the first two are asked, in order,
about (0,1), and the third is not asked. -/
theorem C16_sensor_queries_witness :
    queries (Move_forward.execute ((example_rover []).land origin .NORTH).state
        [obstacle_at 5 5, obstacle_at 0 1, obstacle_at 0 1]).trace =
      [(0, (coordinate_t.ofInt 0, coordinate_t.ofInt 1)),
       (1, (coordinate_t.ofInt 0, coordinate_t.ofInt 1))] ∧
    (queries (Move_forward.execute ((example_rover []).land origin .NORTH).state
        [obstacle_at 5 5, obstacle_at 0 1, obstacle_at 0 1]).trace).length = 1 + 1 :=
  ⟨by decide,
   ((C16_sensor_queries ((example_rover []).land origin .NORTH).state
      [obstacle_at 5 5, obstacle_at 0 1, obstacle_at 0 1]).2.2.2.1 (by decide)).2.1.trans
      (by decide)⟩

/-! ## Lemmas on sequences of calls -/

/-- The loop of `Rover::execute` never writes `landed`. -/
theorem Rover.execute_loop_landed (commands : Char → Option Command) (sensors : List Sensor)
    (s : List Char) (state : RoverState) :
    (Rover.execute_loop commands sensors s state).state.landed = state.landed := by
  induction s generalizing state with
  | nil => rfl
  | cons c rest ih =>
    unfold Rover.execute_loop
    cases hc : commands c with
    | none => rfl
    | some cmd =>
      have hf := (Command.command_flags cmd state sensors).1
      rcases Command.command_thrown cmd state sensors with ht | ht
      · simp only [ht]
        rw [ih]
        exact hf
      · simp only [ht]
        exact hf

/-- The method `Rover::execute` never writes `landed`. -/
theorem Rover.execute_state_landed (rover : Rover) (s : List Char) :
    (rover.execute s).state.landed = rover.state.landed := by
  unfold Rover.execute
  split
  · rfl
  · rw [Rover.execute_loop_landed]
    rfl

/-- A landed rover stays landed through any sequence of calls. -/
theorem Rover.foldl_call_landed (calls : List RoverCall) (rover : Rover)
    (h : rover.state.landed = true) :
    (calls.foldl Rover.call rover).state.landed = true := by
  induction calls generalizing rover with
  | nil => exact h
  | cons call rest ih =>
    rw [List.foldl_cons]
    apply ih
    cases call with
    | land coords direction => rfl
    | execute s =>
      show (rover.execute s).state.landed = true
      rw [Rover.execute_state_landed, h]

/-- C17: `landed` is monotone.  After `land`, and after any further sequence
of `land` and `execute` calls, `landed` is still true and every `execute`
returns normally, so none is rejected with `RoverNotLanded`; the same holds
from any landed rover; and neither a command (of any nesting) nor `execute`
ever changes the flag `landed`, whether it fails or not. -/
theorem C17_landed_monotone :
    (∀ (rover : Rover) (coords : coordinates_t) (direction : Direction)
      (calls : List RoverCall),
      (calls.foldl Rover.call (rover.land coords direction)).state.landed = true ∧
      ∀ s : List Char,
        ((calls.foldl Rover.call (rover.land coords direction)).execute s).thrown = none) ∧
    (∀ (rover : Rover) (calls : List RoverCall),
      rover.state.landed = true →
      (calls.foldl Rover.call rover).state.landed = true ∧
      ∀ s : List Char, ((calls.foldl Rover.call rover).execute s).thrown = none) ∧
    (∀ (cmd : Command) (state : RoverState) (sensors : List Sensor),
      (cmd.execute state sensors).state.landed = state.landed) ∧
    (∀ (rover : Rover) (s : List Char),
      (rover.execute s).state.landed = rover.state.landed) := by
  have key : ∀ (rover : Rover) (calls : List RoverCall),
      rover.state.landed = true →
      (calls.foldl Rover.call rover).state.landed = true ∧
      ∀ s : List Char, ((calls.foldl Rover.call rover).execute s).thrown = none := by
    intro rover calls h
    have hl := Rover.foldl_call_landed calls rover h
    refine ⟨hl, fun s => ?_⟩
    rw [Rover.execute_landed _ s hl]
    exact Rover.execute_loop_thrown _ _ _ _
  exact ⟨fun rover coords direction calls => key _ calls rfl, key,
    fun cmd state sensors => (Command.command_flags cmd state sensors).1,
    Rover.execute_state_landed⟩

/-- C17 at a rover that lands, is stopped by a blocked move, reads an
unbound character, lands again and moves: it is still landed, and the next
`execute` returns normally. -/
theorem C17_landed_monotone_witness :
    ((example_rover [obstacle_at 0 1]).land origin .NORTH).state.landed = true ∧
    ([RoverCall.execute ['f', 'f'], .execute ['q'], .land origin .EAST,
        .execute ['c', 'b']].foldl Rover.call
      ((example_rover [obstacle_at 0 1]).land origin .NORTH)).state.landed = true ∧
    (([RoverCall.execute ['f', 'f'], .execute ['q'], .land origin .EAST,
        .execute ['c', 'b']].foldl Rover.call
      ((example_rover [obstacle_at 0 1]).land origin .NORTH)).execute ['f']).thrown = none :=
  ⟨rfl,
   (C17_landed_monotone.2.1 ((example_rover [obstacle_at 0 1]).land origin .NORTH)
      [RoverCall.execute ['f', 'f'], .execute ['q'], .land origin .EAST, .execute ['c', 'b']]
      rfl).1,
   (C17_landed_monotone.2.1 ((example_rover [obstacle_at 0 1]).land origin .NORTH)
      [RoverCall.execute ['f', 'f'], .execute ['q'], .land origin .EAST, .execute ['c', 'b']]
      rfl).2 ['f']⟩

/-! ## Lemmas on the cells the position takes -/

theorem locations_append (t1 t2 : List Event) :
    locations (t1 ++ t2) = locations t1 ++ locations t2 := by
  simp [locations, List.filterMap_append]

/-- The sensor loop writes no position. -/
theorem Move_forward.check_locations (new_coords : coordinates_t) (sensors : List Sensor)
    (i : Nat) : locations (Move_forward.check new_coords sensors i).2 = [] := by
  rw [Move_forward.check_queries]
  generalize List.range' i _ = l
  induction l with
  | nil => rfl
  | cons a l ih =>
    simp only [List.map_cons]
    simp [locations]

/-- A call that writes no position and keeps the position has a safe path. -/
theorem safe_path_of_nil (sensors : List Sensor) (entry : RoverState) (r : Result)
    (ht : locations r.trace = []) (hx : r.state.x = entry.x) (hy : r.state.y = entry.y) :
    safe_path sensors entry r := by
  unfold safe_path
  rw [ht, hx, hy]
  simp

/-- Two calls with safe paths, one after the other, have a safe path. -/
theorem safe_path_append (sensors : List Sensor) (entry : RoverState) (r1 r2 : Result)
    (e : Option Exception) (h1 : safe_path sensors entry r1)
    (h2 : safe_path sensors r1.state r2) :
    safe_path sensors entry ⟨e, r2.state, r1.trace ++ r2.trace⟩ := by
  unfold safe_path at *
  obtain ⟨h1a, h1b⟩ := h1
  obtain ⟨h2a, h2b⟩ := h2
  constructor
  · intro cell hcell
    simp only [locations_append, List.mem_append] at hcell
    rcases hcell with hc | hc
    · exact h1a cell hc
    · exact h2a cell hc
  · simp only [locations_append, List.getLast?_append]
    rw [h2b, h1b]
    cases (locations r2.trace).getLast? <;> simp

/-- A safe path depends on the entry state through its position only, and on
the result through its position and trace only. -/
theorem safe_path_congr (sensors : List Sensor) (entry entry1 : RoverState) (r r1 : Result)
    (h : safe_path sensors entry r) (hx : entry1.x = entry.x) (hy : entry1.y = entry.y)
    (hrx : r1.state.x = r.state.x) (hry : r1.state.y = r.state.y) (ht : r1.trace = r.trace) :
    safe_path sensors entry1 r1 := by
  unfold safe_path at *
  rw [hx, hy, hrx, hry, ht]
  exact h

theorem Move_forward.safe_path_forward (state : RoverState) (sensors : List Sensor) :
    safe_path sensors state (Move_forward.execute state sensors) := by
  rw [Move_forward.execute_eq_check]
  split
  · rename_i hc
    have hall := (Move_forward.check_none_iff _ _ _).1 hc
    unfold safe_path
    simp only [locations_append, Move_forward.check_locations, List.nil_append]
    constructor
    · intro cell hcell
      simp only [locations, List.filterMap_cons, List.filterMap_nil, List.mem_singleton] at hcell
      subst hcell
      exact hall
    · simp [locations]
  · apply safe_path_of_nil
    · exact Move_forward.check_locations _ _ _
    · rfl
    · rfl
theorem Move_backward.safe_path_backward (state : RoverState) (sensors : List Sensor) :
    safe_path sensors state (Move_backward.execute state sensors) := by
  rw [Move_backward.execute_eq_forward]
  exact safe_path_congr sensors _ state _ _
    (Move_forward.safe_path_forward state.turn_right.turn_right sensors)
    (by simp) (by simp) (by simp) (by simp) rfl

mutual
/-- Every command, of any nesting, moves the position along cells that all
sensors report safe. -/
theorem Command.safe_path_command (cmd : Command) (state : RoverState)
    (sensors : List Sensor) : safe_path sensors state (cmd.execute state sensors) := by
  cases cmd with
  | Move_forward =>
    simpa [Command.execute] using Move_forward.safe_path_forward state sensors
  | Move_backward =>
    simpa [Command.execute] using Move_backward.safe_path_backward state sensors
  | Rotate_right =>
    exact safe_path_of_nil sensors state _ rfl rfl rfl
  | Rotate_left =>
    exact safe_path_of_nil sensors state _ rfl rfl rfl
  | Compose commands =>
    simpa [Command.execute] using Compose.safe_path_compose commands state sensors
theorem Compose.safe_path_compose (commands : List Command) (state : RoverState)
    (sensors : List Sensor) :
    safe_path sensors state (Compose.execute commands state sensors) := by
  cases commands with
  | nil => exact safe_path_of_nil sensors state _ rfl rfl rfl
  | cons command rest =>
    have h1 := Command.safe_path_command command state sensors
    simp only [Compose.execute]
    rcases Command.command_thrown command state sensors with h | h
    · simp only [h]
      exact safe_path_append sensors state _ _ _ h1
        (Compose.safe_path_compose rest (Command.execute command state sensors).state sensors)
    · simp only [h]
      exact h1
end

/-- The loop of `Rover::execute` moves the position along cells that all
sensors report safe. -/
theorem Rover.safe_path_loop (commands : Char → Option Command) (sensors : List Sensor)
    (s : List Char) (state : RoverState) :
    safe_path sensors state (Rover.execute_loop commands sensors s state) := by
  induction s generalizing state with
  | nil => exact safe_path_of_nil sensors state _ rfl rfl rfl
  | cons c rest ih =>
    unfold Rover.execute_loop
    cases hc : commands c with
    | none => exact safe_path_of_nil sensors state _ rfl rfl rfl
    | some cmd =>
      have h1 := Command.safe_path_command cmd state sensors
      rcases Command.command_thrown cmd state sensors with ht | ht
      · simp only [ht]
        exact safe_path_append sensors state _ _ _ h1 (ih _)
      · simp only [ht]
        exact safe_path_congr sensors state state _ _ h1 rfl rfl rfl rfl rfl

/-- C18: sensor safety invariant, the sensors being predicates on cells.  For
every landed rover, whatever its bindings (composites of any nesting, forward
and backward moves) and the instruction string: every cell the position
takes in the course of `execute` (the cells written by `update_location`) is
reported safe by every sensor; the final position is the last of these cells,
or the entry position when no cell was written; so the final position is the
entry position or a cell safe for all sensors. -/
theorem C18_sensor_safety (rover : Rover) (s : List Char) (h : rover.state.landed = true) :
    (∀ cell ∈ locations (rover.execute s).trace,
      ∀ sensor ∈ rover.sensors, sensor cell.1 cell.2 = true) ∧
    ((rover.execute s).state.x, (rover.execute s).state.y) =
      ((locations (rover.execute s).trace).getLast?).getD (rover.state.x, rover.state.y) ∧
    (((rover.execute s).state.x = rover.state.x ∧ (rover.execute s).state.y = rover.state.y) ∨
      ∀ sensor ∈ rover.sensors,
        sensor (rover.execute s).state.x (rover.execute s).state.y = true) := by
  have hp : safe_path rover.sensors (rover.state.set_is_stopped false) (rover.execute s) := by
    rw [Rover.execute_landed rover s h]
    exact Rover.safe_path_loop _ _ _ _
  obtain ⟨ha, hb⟩ := hp
  simp only [RoverState.set_is_stopped_x, RoverState.set_is_stopped_y] at hb
  refine ⟨ha, hb, ?_⟩
  cases hl : (locations (rover.execute s).trace).getLast? with
  | none =>
    rw [hl] at hb
    left
    exact ⟨congrArg Prod.fst hb, congrArg Prod.snd hb⟩
  | some cell =>
    rw [hl] at hb
    right
    have hmem : cell ∈ locations (rover.execute s).trace := List.mem_of_getLast?_eq_some hl
    have hx : (rover.execute s).state.x = cell.1 := congrArg Prod.fst hb
    have hy : (rover.execute s).state.y = cell.2 := congrArg Prod.snd hb
    rw [hx, hy]
    exact ha cell hmem

/-- C18 at the rover landed at (0,0) facing NORTH with (1,1) unsafe, for the
string "cbblfrff" (`c` is the composite of a right turn and a forward move):
the position takes the cells (1,0), (0,0), (-1,0), (-1,1), (0,1), each safe,
and the last move, to (1,1), is blocked. -/
theorem C18_sensor_safety_witness :
    locations (((example_rover [obstacle_at 1 1]).land origin .NORTH).execute
        ['c', 'b', 'b', 'l', 'f', 'r', 'f', 'f']).trace =
      [(coordinate_t.ofInt 1, coordinate_t.ofInt 0),
       (coordinate_t.ofInt 0, coordinate_t.ofInt 0),
       (coordinate_t.ofInt (-1), coordinate_t.ofInt 0),
       (coordinate_t.ofInt (-1), coordinate_t.ofInt 1),
       (coordinate_t.ofInt 0, coordinate_t.ofInt 1)] ∧
    (((example_rover [obstacle_at 1 1]).land origin .NORTH).execute
        ['c', 'b', 'b', 'l', 'f', 'r', 'f', 'f']).state =
      { x := coordinate_t.ofInt 0, y := coordinate_t.ofInt 1, dir := .EAST,
        is_stopped := true, landed := true } ∧
    ∀ cell ∈ locations (((example_rover [obstacle_at 1 1]).land origin .NORTH).execute
        ['c', 'b', 'b', 'l', 'f', 'r', 'f', 'f']).trace,
      ∀ sensor ∈ ((example_rover [obstacle_at 1 1]).land origin .NORTH).sensors,
        sensor cell.1 cell.2 = true :=
  ⟨by decide, by decide,
   (C18_sensor_safety ((example_rover [obstacle_at 1 1]).land origin .NORTH)
      ['c', 'b', 'b', 'l', 'f', 'r', 'f', 'f'] rfl).1⟩

/-- C19: `Compose` is not atomic.  A failing `Move_forward` or
`Move_backward` leaves the state as it found it, but there are a state, a
sensor list and a composite for which `Compose::execute` throws
`UnsafeLocation` and leaves a changed state; in general a composite whose
children before a blocked forward move succeed throws from the state those
children produced.  Example: at (0,0) facing NORTH with (1,0) unsafe,
`Compose([rotate_right, move_forward])` throws and leaves the rover facing
EAST at (0,0), the state its first child produced; as the single instruction
of `Rover::execute` it ends with `is_stopped = true`, position (0,0),
orientation EAST. -/
theorem C19_compose_not_atomic :
    (∃ (state : RoverState) (sensors : List Sensor) (commands : List Command),
      (Command.execute (.Compose commands) state sensors).thrown = some .UnsafeLocation ∧
      (Command.execute (.Compose commands) state sensors).state ≠ state) ∧
    (∀ (state : RoverState) (sensors : List Sensor),
      (Move_forward.execute state sensors).thrown ≠ none →
      (Move_forward.execute state sensors).state = state) ∧
    (∀ (state : RoverState) (sensors : List Sensor),
      (Move_backward.execute state sensors).thrown ≠ none →
      (Move_backward.execute state sensors).state = state) ∧
    (∀ (sensors : List Sensor) (before after : List Command) (state st1 : RoverState),
      children_in_order sensors before state = some st1 →
      (Move_forward.execute st1 sensors).thrown ≠ none →
      (Command.execute (.Compose (before ++ .Move_forward :: after)) state sensors).thrown =
        some .UnsafeLocation ∧
      (Command.execute (.Compose (before ++ .Move_forward :: after)) state sensors).state
        = st1) ∧
    Command.execute (.Compose [.Rotate_right, .Move_forward])
        ((example_rover []).land origin .NORTH).state [obstacle_at 1 0] =
      ⟨some .UnsafeLocation,
       { x := coordinate_t.ofInt 0, y := coordinate_t.ofInt 0, dir := .EAST,
         is_stopped := false, landed := true },
       [.is_safe 0 (coordinate_t.ofInt 1) (coordinate_t.ofInt 0)]⟩ ∧
    (Command.execute (.Compose [.Rotate_right, .Move_forward])
        ((example_rover []).land origin .NORTH).state [obstacle_at 1 0]).state =
      (Command.execute .Rotate_right ((example_rover []).land origin .NORTH).state
        [obstacle_at 1 0]).state ∧
    ((example_rover [obstacle_at 1 0]).land origin .NORTH).execute ['c'] =
      ⟨none,
       { x := coordinate_t.ofInt 0, y := coordinate_t.ofInt 0, dir := .EAST,
         is_stopped := true, landed := true },
       [.is_safe 0 (coordinate_t.ofInt 1) (coordinate_t.ofInt 0)]⟩ := by
  have hf : ∀ (state : RoverState) (sensors : List Sensor),
      (Move_forward.execute state sensors).thrown ≠ none →
      (Move_forward.execute state sensors).thrown = some .UnsafeLocation ∧
      (Move_forward.execute state sensors).state = state := by
    intro state sensors hne
    rw [Move_forward.execute_eq_check] at hne ⊢
    split
    · rename_i hc
      rw [if_pos hc] at hne
      exact absurd rfl hne
    · exact ⟨rfl, rfl⟩
  refine ⟨⟨((example_rover []).land origin .NORTH).state, [obstacle_at 1 0],
    [.Rotate_right, .Move_forward], by decide, by decide⟩, fun st ss h => (hf st ss h).2, ?_, ?_,
    by decide, by decide, by decide⟩
  · intro state sensors hne
    rw [Move_backward.execute_eq_behind] at hne ⊢
    split
    · rename_i hc
      rw [if_pos hc] at hne
      exact absurd rfl hne
    · rfl
  · intro sensors before after state st1 hpre hne
    obtain ⟨ht, hs⟩ := hf st1 sensors hne
    rw [Command.execute_Compose, Compose.execute_append sensors before _ state st1 hpre]
    have ht1 : (Command.execute .Move_forward st1 sensors).thrown = some .UnsafeLocation := ht
    have hs1 : (Command.execute .Move_forward st1 sensors).state = st1 := hs
    simp [Compose.execute, ht1, hs1]

/-- C19 at a composite of two left turns, a blocked forward move and a right
turn: with (0,-1) unsafe it throws from the state the two left turns
produced, the rover facing SOUTH at (0,0). -/
theorem C19_compose_not_atomic_witness :
    (Command.execute (.Compose ([.Rotate_left, .Rotate_left] ++ .Move_forward :: [.Rotate_right]))
        ((example_rover []).land origin .NORTH).state [obstacle_at 0 (-1)]).state =
      { x := coordinate_t.ofInt 0, y := coordinate_t.ofInt 0, dir := .SOUTH,
        is_stopped := false, landed := true } :=
  (C19_compose_not_atomic.2.2.2.1 [obstacle_at 0 (-1)] [.Rotate_left, .Rotate_left]
    [.Rotate_right] ((example_rover []).land origin .NORTH).state
    { x := coordinate_t.ofInt 0, y := coordinate_t.ofInt 0, dir := .SOUTH,
      is_stopped := false, landed := true } (by decide) (by decide)).2

/-- Once an instruction has failed, what is appended to the string has no
influence. -/
theorem Rover.execute_loop_append_of_none (commands : Char → Option Command)
    (sensors : List Sensor) (pre rest : List Char) (state : RoverState)
    (h : Rover.instructions commands sensors pre state = none) :
    Rover.execute_loop commands sensors (pre ++ rest) state =
      Rover.execute_loop commands sensors pre state := by
  induction pre generalizing state with
  | nil => simp [Rover.instructions_nil] at h
  | cons c pre ih =>
    rw [Rover.instructions_cons] at h
    rw [List.cons_append]
    cases hi : Rover.instruction commands sensors state c with
    | none =>
      rw [Rover.execute_loop_cons_of_none _ _ c _ state hi,
        Rover.execute_loop_cons_of_none _ _ c pre state hi]
    | some st2 =>
      simp only [hi, Option.some_bind] at h
      obtain ⟨cmd, hc, ht, hs⟩ := (Rover.instruction_eq_some commands sensors state st2 c).1 hi
      simp only [Rover.execute_loop, hc, ht, hs]
      rw [ih st2 h]

theorem RoverState.set_is_stopped_self (s : RoverState) (b : Bool) (h : s.is_stopped = b) :
    s.set_is_stopped b = s := by
  obtain ⟨x, y, dir, st, l⟩ := s
  simp only at h
  subst h
  rfl

/-- C20: batch splitting on a landed rover.  When `execute(s1)` ends with
`is_stopped = false`, calling `execute(s2)` next leaves the state that the
single call `execute(s1 ++ s2)` leaves (and the events of the single call are
those of the two calls one after the other); when `execute(s1)` ends with
`is_stopped = true`, `execute(s1 ++ s2)` does exactly what `execute(s1)`
does. -/
theorem C20_batch_splitting (rover : Rover) (s1 s2 : List Char)
    (h : rover.state.landed = true) :
    ((rover.execute s1).state.is_stopped = false →
      ((rover.after_execute s1).execute s2).state = (rover.execute (s1 ++ s2)).state ∧
      ((rover.after_execute s1).execute s2).thrown = (rover.execute (s1 ++ s2)).thrown ∧
      (rover.execute (s1 ++ s2)).trace =
        (rover.execute s1).trace ++ ((rover.after_execute s1).execute s2).trace) ∧
    ((rover.execute s1).state.is_stopped = true →
      rover.execute (s1 ++ s2) = rover.execute s1 ∧
      (rover.execute (s1 ++ s2)).state = (rover.execute s1).state) := by
  have h1 := Rover.execute_landed rover s1 h
  have h12 := Rover.execute_landed rover (s1 ++ s2) h
  constructor
  · intro hs
    cases hi : Rover.instructions rover.commands rover.sensors s1
        (rover.state.set_is_stopped false) with
    | none =>
      have := Rover.execute_loop_of_none _ _ _ _ hi
      rw [← h1, hs] at this
      exact absurd this (by decide)
    | some st1 =>
      have hst : (rover.execute s1).state = st1 := by
        rw [h1]
        exact (Rover.execute_loop_of_some _ _ _ _ _ hi).2
      have hl2 : (rover.after_execute s1).state.landed = true := by
        show (rover.execute s1).state.landed = true
        rw [Rover.execute_state_landed, h]
      have h2 : (rover.after_execute s1).execute s2 =
          Rover.execute_loop rover.commands rover.sensors s2 st1 := by
        rw [Rover.execute_landed _ s2 hl2]
        show Rover.execute_loop rover.commands rover.sensors s2
          ((rover.execute s1).state.set_is_stopped false) = _
        rw [RoverState.set_is_stopped_self _ _ hs, hst]
      rw [h2, h12, Rover.execute_loop_append _ _ _ _ _ _ hi, h1]
      exact ⟨rfl, rfl, rfl⟩
  · intro hs
    have hi : Rover.instructions rover.commands rover.sensors s1
        (rover.state.set_is_stopped false) = none := by
      cases hi : Rover.instructions rover.commands rover.sensors s1
          (rover.state.set_is_stopped false) with
      | none => rfl
      | some st1 =>
        have hst := (Rover.execute_loop_of_some _ _ _ _ _ hi).2
        have hf := (Rover.instructions_flags _ _ _ _ _ hi).2
        rw [← h1] at hst
        rw [hst, hf] at hs
        simp at hs
    have : rover.execute (s1 ++ s2) = rover.execute s1 := by
      rw [h12, h1]
      exact Rover.execute_loop_append_of_none _ _ _ _ _ hi
    exact ⟨this, by rw [this]⟩

/-- C20 at the rover landed at (0,0) facing NORTH with (0,2) unsafe: "fr"
succeeds and "ff" after it is "frff" at once; "ff" stops and "ffrb" is "ff". -/
theorem C20_batch_splitting_witness :
    ((((example_rover [obstacle_at 0 2]).land origin .NORTH).after_execute ['f', 'r']).execute
        ['f', 'f']).state =
      (((example_rover [obstacle_at 0 2]).land origin .NORTH).execute
        (['f', 'r'] ++ ['f', 'f'])).state ∧
    ((example_rover [obstacle_at 0 2]).land origin .NORTH).execute (['f', 'f'] ++ ['r', 'b']) =
      ((example_rover [obstacle_at 0 2]).land origin .NORTH).execute ['f', 'f'] :=
  ⟨((C20_batch_splitting ((example_rover [obstacle_at 0 2]).land origin .NORTH) ['f', 'r']
      ['f', 'f'] rfl).1 (by decide)).1,
   ((C20_batch_splitting ((example_rover [obstacle_at 0 2]).land origin .NORTH) ['f', 'f']
      ['r', 'b'] rfl).2 (by decide)).1⟩

end RoverModel
